import Mathlib

/-! # Host-function bridge of the contract VM (`vm/wasm/exec/env_func.go`)

A shallow embedding of the host-function registry and of the handlers of
`env_func.go`, followed by theorems about them.

Modelling conventions.

* A Go handler `func(vm *VM) (bool, error)` becomes a function `VM → Res`: it
  either returns `(ok, err)` together with the VM state it leaves behind
  (`Res.ret`), or it aborts with a Go run-time panic (`Res.fault`), e.g. on an
  index or slice expression that is out of range.
* `uint64` parameter words are natural numbers; the conversion `int(x)` is
  `toInt`, the two's-complement reading of the low 64 bits, and sums of such
  values wrap (`addInt`).
* The parameter cursor `envFuncParamIdx` and the lengths of byte buffers are
  Go `int`s that start at 0 and are only ever advanced by amounts bounded by a
  buffer length; they are natural numbers here.
* `vm.memory` is a list of bytes whose capacity equals its length.  A buffer
  returned by `GetData` is a Go slice with a visible part and possibly spare
  capacity behind it (`GoSlice`).
* The map `envFuncMap` is a total function from names to optional handlers; a
  handler stored in it is named by the identifier of the Go function
  (`HostFn`).
* The VM methods, package functions and collaborators that `env_func.go`
  calls but does not define (`GetData`, `StorageData`, the persistent store,
  the JSON codec, ...) are parameters, collected in `Host`.
* Go strings that carry data are lists of bytes.  Output written with `fmt`
  is not part of the state.
-/

namespace WasmExec

/-! ## Data model -/

/-- Modelled from the spec: the resumption context of the interpreter (type
`context`, declared outside `env_func.go`) is opaque to the bridge; it is saved
and restored verbatim, so only its identity is represented. -/
structure context where
  id : Nat
  deriving DecidableEq, Repr

/-- Identifiers of the functions of `env_func.go` that have the handler
signature `func(vm *VM) (bool, error)`. -/
inductive HostFn where
  | calloc | malloc | arrayLen | memcpy | memset | readMessage
  | readInt32Param | readInt64Param | readStringParam | rawUnmashal
  | jsonUnmashal | jsonMashal | stringcmp | getStrValue | setStrValue
  | removeStrValue | printi | prints | getParam | callTrx | recvTrx
  | parseParam
  deriving DecidableEq, Repr

/-- The struct `EnvFunc`: the name-to-handler map and the invocation frame.
`H` is the type of the handlers stored in the map. -/
structure EnvFunc (H : Type) where
  envFuncMap : String → Option H
  envFuncCtx : context
  envFuncParam : List Nat
  envFuncRtn : Bool
  envFuncParamIdx : Nat
  envMethod : String

/-- Modelled from the spec: the semantic types of a type tag (the constants
`Int8` ... `Unknown` are declared outside `env_func.go`).  `other` stands for
any value of the Go type that is none of the named constants. -/
inductive DataType where
  | Int8 | Int16 | Int32 | Int64 | Float32 | Float64 | String | Unknown
  | other (n : Nat)
  deriving DecidableEq, Repr

/-- The struct `typeInfo` (fields `Type` and `Len`). -/
structure typeInfo where
  Typ : DataType
  Len : Int
  deriving DecidableEq, Repr

/-- Modelled from the spec: the struct `types.Transaction` (declared outside
`env_func.go`).  Go strings and byte slices are lists of bytes. -/
structure Transaction where
  Version : Nat
  CursorNum : Nat
  CursorLabel : Nat
  Lifetime : Nat
  Sender : List UInt8
  Contract : List UInt8
  Method : List UInt8
  Param : List UInt8
  SigAlg : Nat
  Signature : List UInt8
  deriving DecidableEq, Repr

/-- Modelled from the spec: the persistent contract store behind the handle
`ContractDB` is an external collaborator; its state is opaque to the bridge and
is represented by its identity. -/
structure StoreState where
  id : Nat
  deriving DecidableEq, Repr

/-- Modelled from the spec: the struct `contract.Context` (declared outside
`env_func.go`): a role provider, the handle of the persistent store and the
active transaction. -/
structure Context where
  RoleIntf : Nat
  ContractDB : StoreState
  Trx : Transaction
  deriving DecidableEq, Repr

/-- The fields of the struct `VM` that the handlers modelled here use.
`stack` is the operand stack that `pushUint64` appends to; `vmChannel` holds
the values sent on the channel of that name, oldest first. -/
structure VM where
  envFunc : EnvFunc HostFn
  memory : List UInt8
  memType : Nat → Option typeInfo
  ctx : context
  stack : List Nat
  contract : Context
  subCtnLst : List Context
  subTrxLst : List Transaction
  callWid : Nat
  vmChannel : List (List UInt8)

/-- Outcome of a handler call: the returned pair `(bool, error)` with the VM
state left behind, or a Go run-time panic. -/
inductive Res where
  | ret (ok : Bool) (err : Option String) (vm : VM)
  | fault

/-! ## Registry -/

/-- `EnvFunc.Register`: binds `method` to `handler` unless `method` is already
bound. -/
def EnvFunc.Register {H : Type} (env : EnvFunc H) (method : String) (handler : H) : EnvFunc H :=
  match env.envFuncMap method with
  | some _ => env
  | none => { env with envFuncMap := fun k => if k = method then some handler else env.envFuncMap k }

/-- `EnvFunc.Invoke`: looks `method` up and calls the handler found; `call`
is the application of a stored handler to the VM (`fc(vm)`). -/
def EnvFunc.Invoke {H : Type} (call : H → VM → Res) (env : EnvFunc H) (method : String) (vm : VM) : Res :=
  match env.envFuncMap method with
  | none => Res.ret false (some ("*ERROR* Failed to find method : " ++ method)) vm
  | some fc => call fc vm

/-- `NewEnvFunc`: an empty map, cursor 0, then the sixteen registrations in
source order. -/
def NewEnvFunc : EnvFunc HostFn :=
  let envFunc : EnvFunc HostFn :=
    { envFuncMap := fun _ => none
      envFuncCtx := { id := 0 }
      envFuncParam := []
      envFuncRtn := false
      envFuncParamIdx := 0
      envMethod := "" }
  let envFunc := envFunc.Register "strcmp" HostFn.stringcmp
  let envFunc := envFunc.Register "malloc" HostFn.malloc
  let envFunc := envFunc.Register "arrayLen" HostFn.arrayLen
  let envFunc := envFunc.Register "memcpy" HostFn.memcpy
  let envFunc := envFunc.Register "JsonUnmashal" HostFn.jsonUnmashal
  let envFunc := envFunc.Register "JsonMashal" HostFn.jsonMashal
  let envFunc := envFunc.Register "memset" HostFn.memset
  let envFunc := envFunc.Register "printi" HostFn.printi
  let envFunc := envFunc.Register "prints" HostFn.prints
  let envFunc := envFunc.Register "getStrValue" HostFn.getStrValue
  let envFunc := envFunc.Register "setStrValue" HostFn.setStrValue
  let envFunc := envFunc.Register "removeStrValue" HostFn.removeStrValue
  let envFunc := envFunc.Register "getParam" HostFn.getParam
  let envFunc := envFunc.Register "callTrx" HostFn.callTrx
  let envFunc := envFunc.Register "recvTrx" HostFn.recvTrx
  let envFunc := envFunc.Register "parseParam" HostFn.parseParam
  envFunc

/-- The names that `NewEnvFunc` registers, with their handlers, as one table. -/
def builtinTable : List (String × HostFn) :=
  [("strcmp", HostFn.stringcmp), ("malloc", HostFn.malloc), ("arrayLen", HostFn.arrayLen),
   ("memcpy", HostFn.memcpy), ("memset", HostFn.memset),
   ("JsonUnmashal", HostFn.jsonUnmashal), ("JsonMashal", HostFn.jsonMashal),
   ("printi", HostFn.printi), ("prints", HostFn.prints),
   ("getStrValue", HostFn.getStrValue), ("setStrValue", HostFn.setStrValue),
   ("removeStrValue", HostFn.removeStrValue), ("getParam", HostFn.getParam),
   ("callTrx", HostFn.callTrx), ("recvTrx", HostFn.recvTrx), ("parseParam", HostFn.parseParam)]

/-! ## Machine integers and slices -/

/-- The conversion `int(x)` of a `uint64` word on a 64-bit target: the
two's-complement reading of its low 64 bits. -/
def toInt (u : Nat) : Int :=
  if u % 18446744073709551616 < 9223372036854775808 then ((u % 18446744073709551616 : Nat) : Int)
  else ((u % 18446744073709551616 : Nat) : Int) - 18446744073709551616

/-- Reduction of an integer into the range of Go's 64-bit `int`. -/
def wrapInt (x : Int) : Int :=
  (x + 9223372036854775808) % 18446744073709551616 - 9223372036854775808

/-- Addition of two Go `int`s (wraps on overflow). -/
def addInt (a b : Int) : Int := wrapInt (a + b)

/-- The conversion `uint64(x)` of a Go `int`. -/
def toUint64 (x : Int) : Nat := (x % 18446744073709551616).toNat

/-- The slice expression `s[lo:hi]` on a slice whose capacity equals its
length: the bytes from `lo` up to `hi`, or `none` where Go panics. -/
def sliceOf (s : List UInt8) (lo hi : Int) : Option (List UInt8) :=
  if 0 ≤ lo ∧ lo ≤ hi ∧ hi ≤ (s.length : Int) then some ((s.drop lo.toNat).take (hi.toNat - lo.toNat))
  else none

/-- The effect of `copy(s[lo:hi], src)` on `s` once both slice expressions
have been evaluated: the first `min (hi - lo) (len src)` bytes of `src`
replace the bytes of `s` from `lo` on. -/
def copyInto (s : List UInt8) (lo hi : Nat) (src : List UInt8) : List UInt8 :=
  s.take lo ++ src.take (hi - lo) ++ s.drop (lo + min (hi - lo) src.length)

/-- Modelled from the spec: `vm.pushUint64` (defined outside `env_func.go`)
pushes one word onto the operand stack of the interpreter. -/
def VM.pushUint64 (vm : VM) (n : Nat) : VM :=
  { vm with stack := vm.stack ++ [n] }

/-- The common tail of the handlers: restore the saved context, then push the
result word if the caller expects one. -/
def VM.restoreAndPush (vm : VM) (result : Nat) : VM :=
  let vm1 : VM := { vm with ctx := vm.envFunc.envFuncCtx }
  if vm1.envFunc.envFuncRtn then vm1.pushUint64 result else vm1

/-! ## Memory handlers -/

/-- The handler `arrayLen`; `arrayLenValue` is the value of its local
`result`. -/
def arrayLenValue (memType : Nat → Option typeInfo) (pointer : Nat) : Nat :=
  match memType pointer with
  | some tl =>
    match tl.Typ with
    | DataType.Int8 | DataType.String => toUint64 (Int.tdiv tl.Len 1)
    | DataType.Int16 => toUint64 (Int.tdiv tl.Len 2)
    | DataType.Int32 | DataType.Float32 => toUint64 (Int.tdiv tl.Len 4)
    | DataType.Int64 | DataType.Float64 => toUint64 (Int.tdiv tl.Len 8)
    | DataType.Unknown => toUint64 (Int.tdiv tl.Len 1)
    | DataType.other _ => 0
  | none => 0

/-- The handler `arrayLen`. -/
def arrayLen (vm : VM) : Res :=
  match vm.envFunc.envFuncParam with
  | [pointer] => Res.ret true none (vm.restoreAndPush (arrayLenValue vm.memType pointer))
  | _ => Res.ret false (some "parameter count error while call arrayLen") vm

/-- The handler `memcpy`. -/
def memcpy (vm : VM) : Res :=
  match vm.envFunc.envFuncParam with
  | [p0, p1, p2] =>
    let dest := toInt p0
    let src := toInt p1
    let length := toInt p2
    if dest < src ∧ addInt dest length > src then
      Res.ret false (some "memcpy overlapped") vm
    else
      match sliceOf vm.memory dest (addInt dest length), sliceOf vm.memory src (addInt src length) with
      | some _, some srcBytes =>
        let vm1 : VM :=
          { vm with memory := copyInto vm.memory dest.toNat (addInt dest length).toNat srcBytes }
        Res.ret true none (vm1.restoreAndPush 1)
      | _, _ => Res.fault
  | _ => Res.ret false (some "parameter count error while call memcpy") vm

/-- The handler `memset`.  `make([]byte, cnt)` panics on a negative `cnt`; the
buffer `tmp` is `cnt` copies of `byte(char)`. -/
def memset (vm : VM) : Res :=
  match vm.envFunc.envFuncParam with
  | [p0, p1, p2] =>
    let dest := toInt p0
    let char := toInt p1
    let cnt := toInt p2
    if cnt < 0 then Res.fault
    else
      let tmp : List UInt8 := List.replicate cnt.toNat (UInt8.ofNat (char % 256).toNat)
      match sliceOf vm.memory dest (addInt dest cnt) with
      | some _ =>
        let vm1 : VM :=
          { vm with memory := copyInto vm.memory dest.toNat (addInt dest cnt).toNat tmp }
        Res.ret true none (vm1.restoreAndPush 1)
      | none => Res.fault
  | _ => Res.ret false (some "parameter count error while call memcpy") vm

/-! ## Sequential parameter stream -/

/-- A Go byte slice as returned by an accessor: `elems` are its `len` visible
bytes, `spare` the bytes of the underlying array between `len` and `cap`. -/
structure GoSlice where
  elems : List UInt8
  spare : List UInt8
  deriving DecidableEq, Repr

/-- The value `len(b)`. -/
def GoSlice.len (b : GoSlice) : Nat := b.elems.length

/-- The index expression `b[i]`: `none` where Go panics (`i` not below `len`). -/
def GoSlice.index (b : GoSlice) (i : Nat) : Option UInt8 := b.elems[i]?

/-- The slice expression `b[lo:hi]`: `none` where Go panics (`hi` above `cap`
or `lo` above `hi`). -/
def GoSlice.slice (b : GoSlice) (lo hi : Nat) : Option (List UInt8) :=
  if lo ≤ hi ∧ hi ≤ b.elems.length + b.spare.length then
    some (((b.elems ++ b.spare).drop lo).take (hi - lo))
  else none

/-- The argument of `vm.StorageData`, which the handlers call with a byte
slice, an `[]int`, an `[]int64` or a string. -/
inductive StoreArg where
  | bytes (b : List UInt8)
  | ints (l : List Int)
  | int64s (l : List Int)
  | str (s : List UInt8)
  deriving DecidableEq, Repr

/-- The struct `Param` (an element of `ParamList.Params`, declared outside
`env_func.go`): fields `Type` and `Val`. -/
structure Param where
  Typ : List UInt8
  Val : List UInt8
  deriving DecidableEq, Repr

/-- The struct `Rtn` (declared outside `env_func.go`): fields `Type` and
`Val`. -/
structure Rtn where
  Typ : List UInt8
  Val : List UInt8
  deriving DecidableEq, Repr

/-- The VM methods, package functions and collaborators that the handlers use
and `env_func.go` does not define.  `GetData` resolves an address to a byte
buffer or fails; `StorageData` and `getStoragePos` hand a value, resp. a size
and a type, to the allocator, which returns an index or fails and leaves a VM
state behind; `GetMsgBytes` is the message source; `BytesToString` and
`ToLower` (`strings.ToLower`) are string functions; the three `json` fields
are `json.Unmarshal` into a `ParamList`, `json.Marshal` of a `Rtn` and
`json.Unmarshal` into a `contract.Context` (of which only success matters);
`GetStrValue`, `SetStrValue` and `RemoveStrValue` are the methods of the
persistent store, the last two returning their error, if any, and the state of
the store afterwards. -/
structure Host where
  GetData : VM → Nat → Except String GoSlice
  StorageData : VM → StoreArg → Except String Int × VM
  getStoragePos : VM → Int → DataType → Except String Int × VM
  GetMsgBytes : VM → Except String (List UInt8)
  BytesToString : List UInt8 → List UInt8
  ToLower : List UInt8 → List UInt8
  jsonUnmarshalParamList : List UInt8 → Except String (List Param)
  jsonMarshalRtn : Rtn → Except String (List UInt8)
  jsonUnmarshalContext : List UInt8 → Except String Unit
  GetStrValue : StoreState → List UInt8 → List UInt8 → List UInt8 → Except String (List UInt8)
  SetStrValue :
    StoreState → List UInt8 → List UInt8 → List UInt8 → List UInt8 → Option String × StoreState
  RemoveStrValue :
    StoreState → List UInt8 → List UInt8 → List UInt8 → Option String × StoreState

/-- The function `binary.LittleEndian.Uint16`: the first two bytes, low byte
first; `none` where Go panics (fewer than two bytes). -/
def leUint16 : List UInt8 → Option Nat
  | b0 :: b1 :: _ => some (b0.toNat + 256 * b1.toNat)
  | _ => none

/-- The function `binary.LittleEndian.Uint32`. -/
def leUint32 : List UInt8 → Option Nat
  | b0 :: b1 :: b2 :: b3 :: _ =>
    some (b0.toNat + 256 * b1.toNat + 65536 * b2.toNat + 16777216 * b3.toNat)
  | _ => none

/-- The function `binary.LittleEndian.Uint64`. -/
def leUint64 : List UInt8 → Option Nat
  | b0 :: b1 :: b2 :: b3 :: b4 :: b5 :: b6 :: b7 :: _ =>
    some (b0.toNat + 256 * b1.toNat + 65536 * b2.toNat + 16777216 * b3.toNat
      + 4294967296 * b4.toNat + 1099511627776 * b5.toNat + 281474976710656 * b6.toNat
      + 72057594037927936 * b7.toNat)
  | _ => none

/-- The handler `readInt32Param`. -/
def readInt32Param (h : Host) (vm : VM) : Res :=
  match vm.envFunc.envFuncParam with
  | [addr] =>
    match h.GetData vm addr with
    | Except.error err => Res.ret false (some err) vm
    | Except.ok paramBytes =>
      let pidx := vm.envFunc.envFuncParamIdx
      if pidx + 4 > paramBytes.len then
        Res.ret false (some "read params error") vm
      else
        match (paramBytes.slice pidx (pidx + 4)).bind leUint32 with
        | none => Res.fault
        | some retInt =>
          let vm1 : VM :=
            { vm with envFunc := { vm.envFunc with envFuncParamIdx := vm.envFunc.envFuncParamIdx + 4 } }
          Res.ret true none (vm1.restoreAndPush retInt)
  | _ => Res.ret false (some "parameter count error while call readInt32Param") vm

/-- The handler `readInt64Param`. -/
def readInt64Param (h : Host) (vm : VM) : Res :=
  match vm.envFunc.envFuncParam with
  | [addr] =>
    match h.GetData vm addr with
    | Except.error err => Res.ret false (some err) vm
    | Except.ok paramBytes =>
      let pidx := vm.envFunc.envFuncParamIdx
      if pidx + 8 > paramBytes.len then
        Res.ret false (some "read params error") vm
      else
        match (paramBytes.slice pidx (pidx + 8)).bind leUint64 with
        | none => Res.fault
        | some retInt =>
          let vm1 : VM :=
            { vm with envFunc := { vm.envFunc with envFuncParamIdx := vm.envFunc.envFuncParamIdx + 8 } }
          Res.ret true none (vm1.restoreAndPush retInt)
  | _ => Res.ret false (some "parameter count error while call readInt64Param") vm

/-- The `switch paramBytes[pidx]` of `readStringParam`, entered with the byte
`tag` found at `pidx`: the early return or panic of a branch, or the values of
`length` and `pidx` after the switch.  All three escaped branches decode the
length with `binary.LittleEndian.Uint16`. -/
def readStringSwitch (vm : VM) (paramBytes : GoSlice) (pidx : Nat) (tag : UInt8) :
    Except Res (Nat × Nat) :=
  if tag = 0xfd then
    if pidx + 3 > paramBytes.len then
      Except.error (Res.ret false (some "read string failed") vm)
    else
      match (paramBytes.slice (pidx + 1) (pidx + 3)).bind leUint16 with
      | none => Except.error Res.fault
      | some length => Except.ok (length, pidx + 3)
  else if tag = 0xfe then
    if pidx + 5 > paramBytes.len then
      Except.error (Res.ret false (some "read string failed") vm)
    else
      match (paramBytes.slice (pidx + 1) (pidx + 5)).bind leUint16 with
      | none => Except.error Res.fault
      | some length => Except.ok (length, pidx + 5)
  else if tag = 0xff then
    if pidx + 9 > paramBytes.len then
      Except.error (Res.ret false (some "read string failed") vm)
    else
      match (paramBytes.slice (pidx + 1) (pidx + 9)).bind leUint16 with
      | none => Except.error Res.fault
      | some length => Except.ok (length, pidx + 9)
  else
    Except.ok (tag.toNat, pidx)

/-- The last statements of `readStringParam`, from `vm.StorageData(stringbytes)`
on, entered with the final value of `pidx`: the bytes are handed to the
allocator; on success the cursor is set to `pidx`, the context restored and the
index pushed. -/
def readStringStore (h : Host) (vm : VM) (pidx : Nat) (stringbytes : List UInt8) : Res :=
  match h.StorageData vm (StoreArg.bytes stringbytes) with
  | (Except.error _, vm1) => Res.ret false (some "set memory failed") vm1
  | (Except.ok retidx, vm1) =>
    let vm2 : VM := { vm1 with envFunc := { vm1.envFunc with envFuncParamIdx := pidx } }
    Res.ret true none (vm2.restoreAndPush (toUint64 retidx))

/-- The handler `readStringParam`. -/
def readStringParam (h : Host) (vm : VM) : Res :=
  match vm.envFunc.envFuncParam with
  | [addr] =>
    match h.GetData vm addr with
    | Except.error err => Res.ret false (some err) vm
    | Except.ok paramBytes =>
      match paramBytes.index vm.envFunc.envFuncParamIdx with
      | none => Res.fault
      | some tag =>
        match readStringSwitch vm paramBytes vm.envFunc.envFuncParamIdx tag with
        | Except.error r => r
        | Except.ok (length, pidx) =>
          if pidx + length > paramBytes.len then
            Res.ret false (some "read string failed") vm
          else
            match paramBytes.slice (vm.envFunc.envFuncParamIdx + 1) (pidx + (length + 1)) with
            | none => Res.fault
            | some stringbytes => readStringStore h vm (pidx + (length + 1)) stringbytes
  | _ => Res.ret false (some "parameter count error while call readStringParam") vm

/-! ## Strings and numbers -/

/-- The bytes of a Go string literal made of ASCII characters. -/
def ascii (s : String) : List UInt8 := s.toList.map (fun c => UInt8.ofNat c.toNat)

/-- The text of a byte string, used where the source splices one into an
error message. -/
def goString (b : List UInt8) : String := String.mk (b.map (fun c => Char.ofNat c.toNat))

/-- The function `Bytes2String`: the bytes before the first zero byte. -/
def Bytes2String : List UInt8 → List UInt8
  | [] => []
  | b :: bs => if b = 0 then [] else b :: Bytes2String bs

/-- The conversion `uint32(x)` of a Go `int`. -/
def toUint32 (x : Int) : Nat := (x % 4294967296).toNat

/-- Multiplication of two Go `int`s (wraps on overflow). -/
def mulInt (a b : Int) : Int := wrapInt (a * b)

/-- The function `binary.LittleEndian.PutUint32` on a fresh 4-byte buffer. -/
def putUint32 (n : Nat) : List UInt8 :=
  [UInt8.ofNat (n % 256), UInt8.ofNat (n / 256 % 256), UInt8.ofNat (n / 65536 % 256),
   UInt8.ofNat (n / 16777216 % 256)]

/-- The function `binary.LittleEndian.PutUint64` on a fresh 8-byte buffer. -/
def putUint64 (n : Nat) : List UInt8 :=
  [UInt8.ofNat (n % 256), UInt8.ofNat (n / 256 % 256), UInt8.ofNat (n / 65536 % 256),
   UInt8.ofNat (n / 16777216 % 256), UInt8.ofNat (n / 4294967296 % 256),
   UInt8.ofNat (n / 1099511627776 % 256), UInt8.ofNat (n / 281474976710656 % 256),
   UInt8.ofNat (n / 72057594037927936 % 256)]

/-- The decimal digits of a natural number as ASCII bytes. -/
def natDigits (n : Nat) : List UInt8 := (Nat.toDigits 10 n).map (fun c => UInt8.ofNat c.toNat)

/-- The functions `strconv.Itoa` and `strconv.FormatInt(_, 10)`. -/
def itoa (i : Int) : List UInt8 :=
  if i < 0 then 0x2d :: natDigits (-i).toNat else natDigits i.toNat

/-- The value of a string of decimal digits read after `acc`; `none` if a
byte is not a digit. -/
def parseDigits : List UInt8 → Nat → Option Nat
  | [], acc => some acc
  | c :: cs, acc =>
    if 0x30 ≤ c.toNat ∧ c.toNat ≤ 0x39 then parseDigits cs (acc * 10 + (c.toNat - 0x30)) else none

/-- The functions `strconv.Atoi` and `strconv.ParseInt(_, 10, 64)` on a 64-bit
target: an optional sign, then one or more decimal digits, the value within
the range of `int64`; `none` where they return an error. -/
def atoi (s : List UInt8) : Option Int :=
  let neg : Bool := s.head? = some 0x2d
  let ds : List UInt8 := if s.head? = some 0x2d ∨ s.head? = some 0x2b then s.tail else s
  if ds = [] then none
  else
    match parseDigits ds 0 with
    | none => none
    | some n =>
      let v : Int := if neg then -(n : Int) else (n : Int)
      if -9223372036854775808 ≤ v ∧ v < 9223372036854775808 then some v else none

/-- The function `strings.Split(_, ",")`. -/
def splitComma : List UInt8 → List (List UInt8)
  | [] => [[]]
  | c :: cs =>
    if c = 0x2c then [] :: splitComma cs
    else
      match splitComma cs with
      | [] => [[c]]
      | w :: ws => (c :: w) :: ws

/-- The function `strings.Join(_, ",")`. -/
def joinComma : List (List UInt8) → List UInt8
  | [] => []
  | [w] => w
  | w :: ws => w ++ 0x2c :: joinComma ws

/-- The statements `b := make([]byte, len); copy(b, vm.memory[pos:pos+len])`:
the bytes read, or `none` where `make` or the slice expression panics. -/
def readRange (mem : List UInt8) (pos len : Int) : Option (List UInt8) :=
  if len < 0 then none else sliceOf mem pos (addInt pos len)

/-! ## Allocation, comparison, printing and message handlers -/

/-- Modelled from the spec: `vm.GetContract` (defined outside `env_func.go`)
returns the contract execution context of the VM, the field `contract`. -/
def VM.GetContract (vm : VM) : Context := vm.contract

/-- Modelled from the spec: `vm.pushUint32` (defined outside `env_func.go`)
pushes one word onto the operand stack of the interpreter. -/
def VM.pushUint32 (vm : VM) (n : Nat) : VM :=
  { vm with stack := vm.stack ++ [n] }

/-- The function `calloc` (not registered by `NewEnvFunc`). -/
def calloc (h : Host) (vm : VM) : Res :=
  match vm.envFunc.envFuncParam with
  | [p0, p1] =>
    let count := toInt p0
    let length := toInt p1
    match h.getStoragePos vm (mulInt count length) DataType.Unknown with
    | (Except.error err, vm1) => Res.ret false (some err) vm1
    | (Except.ok index, vm1) => Res.ret true none (vm1.restoreAndPush (toUint64 index))
  | _ => Res.ret false (some "*ERROR* Invalid parameter count during call calloc !!! ") vm

/-- The handler `malloc`. -/
def malloc (h : Host) (vm : VM) : Res :=
  match vm.envFunc.envFuncParam with
  | [p0] =>
    let size := toInt p0
    match h.getStoragePos vm size DataType.Unknown with
    | (Except.error err, vm1) => Res.ret false (some err) vm1
    | (Except.ok index, vm1) => Res.ret true none (vm1.restoreAndPush (toUint64 index))
  | _ => Res.ret false (some "parameter count error while call calloc") vm

/-- The function `readMessage` (not registered by `NewEnvFunc`). -/
def readMessage (h : Host) (vm : VM) : Res :=
  match vm.envFunc.envFuncParam with
  | [p0, p1] =>
    let addr := toInt p0
    let length := toInt p1
    match h.GetMsgBytes vm with
    | Except.error err => Res.ret false (some err) vm
    | Except.ok msgBytes =>
      if length ≠ (msgBytes.length : Int) then
        Res.ret false (some "readMessage length error") vm
      else
        match sliceOf vm.memory addr (addInt addr length) with
        | none => Res.fault
        | some _ =>
          let vm1 : VM :=
            { vm with
              memory := copyInto vm.memory addr.toNat (addInt addr length).toNat msgBytes
              memType := fun a =>
                if a = toUint64 addr then some { Typ := DataType.Unknown, Len := length }
                else vm.memType a }
          Res.ret true none (vm1.restoreAndPush (toUint64 length))
  | _ => Res.ret false (some "parameter count error while call readMessage") vm

/-- The function `rawUnmashal` (not registered by `NewEnvFunc`).  The low
bound of its slice expression is the `uint64` word itself, the high bound an
`int`. -/
def rawUnmashal (h : Host) (vm : VM) : Res :=
  match vm.envFunc.envFuncParam with
  | [pos, _, rawAddr] =>
    match h.GetData vm rawAddr with
    | Except.error err => Res.ret false (some err) vm
    | Except.ok rawBytes =>
      match sliceOf vm.memory ((pos % 18446744073709551616 : Nat) : Int)
          (addInt (toInt pos) (rawBytes.len : Int)) with
      | none => Res.fault
      | some _ =>
        Res.ret true none
          { vm with
            memory := copyInto vm.memory (pos % 18446744073709551616)
              (addInt (toInt pos) (rawBytes.len : Int)).toNat rawBytes.elems }
  | _ => Res.ret false (some "parameter count error while call jsonUnmashal") vm

/-- The handler `stringcmp`, registered as `strcmp`. -/
def stringcmp (h : Host) (vm : VM) : Res :=
  match vm.envFunc.envFuncParam with
  | [addr1, addr2] =>
    if addr1 = addr2 then Res.ret true none (vm.restoreAndPush 0)
    else
      match h.GetData vm addr1 with
      | Except.error err => Res.ret false (some err) vm
      | Except.ok bytes1 =>
        match h.GetData vm addr2 with
        | Except.error err => Res.ret false (some err) vm
        | Except.ok bytes2 =>
          if h.BytesToString bytes1.elems = h.BytesToString bytes2.elems then
            Res.ret true none (vm.restoreAndPush 0)
          else Res.ret true none (vm.restoreAndPush 1)
  | _ => Res.ret false (some "parameter count error while call strcmp") vm

/-- The handler `printi`: it indexes `envFuncParam[0]` without a test of the
parameter count, prints and returns. -/
def printi (vm : VM) : Res :=
  match vm.envFunc.envFuncParam with
  | [] => Res.fault
  | _ :: _ => Res.ret true none vm

/-- The handler `prints`: it indexes `envFuncParam[0]` and `envFuncParam[1]`
without a test of the parameter count and copies `vm.memory[pos:pos+len]`, both
bounds being `uint64` values, into a fresh buffer. -/
def prints (vm : VM) : Res :=
  match vm.envFunc.envFuncParam with
  | pos :: len :: _ =>
    let lo := pos % 18446744073709551616
    let hi := (pos + len) % 18446744073709551616
    if len % 18446744073709551616 < 9223372036854775808 ∧ lo ≤ hi ∧ hi ≤ vm.memory.length then
      Res.ret true none vm
    else Res.fault
  | _ => Res.fault

/-- The handler `getParam`. -/
def getParam (vm : VM) : Res :=
  let contractCtx := vm.GetContract
  match vm.envFunc.envFuncParam with
  | [p0, p1] =>
    let bufPos := toInt p0
    let bufLen := toInt p1
    let paramLen : Int := (contractCtx.Trx.Param.length : Int)
    if bufLen ≤ paramLen then Res.ret false (some "buffer not enough") vm
    else
      match sliceOf vm.memory bufPos (addInt bufPos paramLen) with
      | none => Res.fault
      | some _ =>
        let vm1 : VM :=
          { vm with
            memory := copyInto vm.memory bufPos.toNat (addInt bufPos paramLen).toNat
              contractCtx.Trx.Param }
        Res.ret true none (vm1.restoreAndPush (toUint64 paramLen))
  | _ => Res.ret false (some "parameter count error while call memcpy") vm

/-- The handler `recvTrx`.  The send on `vm.vmChannel` is recorded as an
append; that it may block is not represented. -/
def recvTrx (h : Host) (vm : VM) : Res :=
  match vm.envFunc.envFuncParam with
  | [p0, p1] =>
    let crxPos := toInt p0
    let crxLen := toInt p1
    match sliceOf vm.memory crxPos (addInt crxPos crxLen) with
    | none => Res.fault
    | some bCrx =>
      match h.jsonUnmarshalContext bCrx with
      | Except.error _ => Res.ret false none vm
      | Except.ok _ => Res.ret true none { vm with vmChannel := vm.vmChannel ++ [bCrx] }
  | _ => Res.ret false (some "*ERROR* parameter count error while call memcpy") vm

/-- The handler `parseParam`: the result of `msgpack.Unmarshal` is dropped. -/
def parseParam (vm : VM) : Res :=
  match vm.envFunc.envFuncParam with
  | [p0, p1] =>
    let paramPos := toInt p0
    let paramLen := toInt p1
    match sliceOf vm.memory paramPos (addInt paramPos paramLen) with
    | none => Res.fault
    | some _ => Res.ret true none vm
  | _ => Res.ret false (some "*ERROR* Parameter count error while call memcpy") vm

/-! ## Contract storage bridge -/

/-- The statements of `getStrValue` after the call of the store, entered with
its result `(value, err)`: on an error, or when the value is longer than the
buffer, `valueLen` is 0; else the value is copied to `valueBufPos`; then the
context is restored and `valueLen` pushed. -/
def getStrValueDone (vm : VM) (valueBufPos valueBufLen : Int)
    (r : Except String (List UInt8)) : Res :=
  match r with
  | Except.error _ => Res.ret true none (vm.restoreAndPush (toUint64 0))
  | Except.ok value =>
    let valueLen : Int := (value.length : Int)
    if valueLen ≤ valueBufLen then
      match sliceOf vm.memory valueBufPos (addInt valueBufPos valueLen) with
      | none => Res.fault
      | some _ =>
        let vm1 : VM :=
          { vm with
            memory := copyInto vm.memory valueBufPos.toNat (addInt valueBufPos valueLen).toNat
              value }
        Res.ret true none (vm1.restoreAndPush (toUint64 valueLen))
    else Res.ret true none (vm.restoreAndPush (toUint64 0))

/-- The statements of `setStrValue` and `removeStrValue` after the call of the
store, entered with the error it returned, if any, and the state it left: the
result is 1 without an error and 0 with one; the context is restored and the
result pushed. -/
def storeCallDone (vm : VM) (r : Option String × StoreState) : Res :=
  let result : Int := if r.1 = none then 1 else 0
  let vm1 : VM := { vm with contract := { vm.contract with ContractDB := r.2 } }
  Res.ret true none (vm1.restoreAndPush (toUint64 result))

/-- The handler `getStrValue`. -/
def getStrValue (h : Host) (vm : VM) : Res :=
  let contractCtx := vm.GetContract
  match vm.envFunc.envFuncParam with
  | [p0, p1, p2, p3, p4, p5, p6, p7] =>
    let contractPos := toInt p0
    let contractLen := toInt p1
    let objectPos := toInt p2
    let objectLen := toInt p3
    let keyPos := toInt p4
    let keyLen := toInt p5
    let valueBufPos := toInt p6
    let valueBufLen := toInt p7
    match readRange vm.memory contractPos contractLen with
    | none => Res.fault
    | some contract =>
      match readRange vm.memory objectPos objectLen with
      | none => Res.fault
      | some object =>
        match readRange vm.memory keyPos keyLen with
        | none => Res.fault
        | some key =>
          getStrValueDone vm valueBufPos valueBufLen
            (h.GetStrValue contractCtx.ContractDB contract object key)
  | _ => Res.ret false (some "parameter count error while call getStrValue") vm

/-- The handler `setStrValue`. -/
def setStrValue (h : Host) (vm : VM) : Res :=
  let contractCtx := vm.GetContract
  match vm.envFunc.envFuncParam with
  | [p0, p1, p2, p3, p4, p5] =>
    let objectPos := toInt p0
    let objectLen := toInt p1
    let keyPos := toInt p2
    let keyLen := toInt p3
    let valuePos := toInt p4
    let valueLen := toInt p5
    match readRange vm.memory objectPos objectLen with
    | none => Res.fault
    | some object =>
      match readRange vm.memory keyPos keyLen with
      | none => Res.fault
      | some key =>
        match readRange vm.memory valuePos valueLen with
        | none => Res.fault
        | some value =>
          storeCallDone vm
            (h.SetStrValue contractCtx.ContractDB contractCtx.Trx.Contract object key value)
  | _ => Res.ret false (some "parameter count error while call setStrValue") vm

/-- The handler `removeStrValue`. -/
def removeStrValue (h : Host) (vm : VM) : Res :=
  let contractCtx := vm.GetContract
  match vm.envFunc.envFuncParam with
  | [p0, p1, p2, p3] =>
    let objectPos := toInt p0
    let objectLen := toInt p1
    let keyPos := toInt p2
    let keyLen := toInt p3
    match readRange vm.memory objectPos objectLen with
    | none => Res.fault
    | some object =>
      match readRange vm.memory keyPos keyLen with
      | none => Res.fault
      | some key =>
        storeCallDone vm
          (h.RemoveStrValue contractCtx.ContractDB contractCtx.Trx.Contract object key)
  | _ => Res.ret false (some "parameter count error while call removeStrValue") vm

/-! ## Inter-contract call dispatch -/

/-- The transaction built by `callTrx` from the current one and the target
contract, method and parameter bytes. -/
def subTransaction (cur : Transaction) (contrx method value : List UInt8) : Transaction :=
  { Version := cur.Version
    CursorNum := cur.CursorNum
    CursorLabel := cur.CursorLabel
    Lifetime := cur.Lifetime
    Sender := cur.Contract
    Contract := contrx
    Method := method
    Param := value
    SigAlg := cur.SigAlg
    Signature := [] }

/-- The handler `callTrx`.  A missing type tag at `cPos` or `mPos` is a nil
pointer, whose field `Len` cannot be read. -/
def callTrx (h : Host) (vm : VM) : Res :=
  match vm.envFunc.envFuncParam with
  | [p0, p1, p2, p3] =>
    let cPos := toInt p0
    let mPos := toInt p1
    let pPos := toInt p2
    let pLen := toInt p3
    match vm.memType (toUint64 cPos) with
    | none => Res.fault
    | some tc =>
      match sliceOf vm.memory cPos (addInt (addInt cPos tc.Len) (-1)) with
      | none => Res.fault
      | some cBytes =>
        let contrx := h.BytesToString cBytes
        match vm.memType (toUint64 mPos) with
        | none => Res.fault
        | some tm =>
          match sliceOf vm.memory mPos (addInt (addInt mPos tm.Len) (-1)) with
          | none => Res.fault
          | some mBytes =>
            let method := h.BytesToString mBytes
            match sliceOf vm.memory pPos (addInt pPos pLen) with
            | none => Res.fault
            | some param =>
              let trx := subTransaction vm.contract.Trx contrx method param
              let ctx : Context :=
                { RoleIntf := vm.GetContract.RoleIntf
                  ContractDB := vm.GetContract.ContractDB
                  Trx := trx }
              let vm1 : VM :=
                { vm with
                  callWid := vm.callWid + 1
                  subCtnLst := vm.subCtnLst ++ [ctx]
                  subTrxLst := vm.subTrxLst ++ [trx] }
              Res.ret true none (if vm1.envFunc.envFuncRtn then vm1.pushUint32 0 else vm1)
  | _ => Res.ret false (some "*ERROR* Parameter count error while call memcpy") vm

/-! ## Typed-value document marshaling -/

/-- The body of the `for` loop of `jsonUnmashal` for one parameter: the early
return of a branch, or the VM state and the contents of `buff` after it.  The
text of an error of `strconv` is not represented beyond its origin. -/
def jsonUnmashalParam (h : Host) (vm : VM) (buff : List UInt8) (param : Param) :
    Except Res (VM × List UInt8) :=
  if h.ToLower param.Typ = ascii "int" then
    match atoi param.Val with
    | none => Except.error (Res.ret false (some "strconv.Atoi") vm)
    | some val => Except.ok (vm, buff ++ putUint32 (toUint32 val))
  else if h.ToLower param.Typ = ascii "int64" then
    match atoi param.Val with
    | none => Except.error (Res.ret false (some "strconv.ParseInt") vm)
    | some val => Except.ok (vm, buff ++ putUint64 (toUint64 val))
  else if h.ToLower param.Typ = ascii "int_array" then
    match (splitComma param.Val).mapM atoi with
    | none => Except.error (Res.ret false (some "strconv.Atoi") vm)
    | some tmparr =>
      match h.StorageData vm (StoreArg.ints tmparr) with
      | (Except.error err, vm1) => Except.error (Res.ret false (some err) vm1)
      | (Except.ok idx, vm1) => Except.ok (vm1, buff ++ putUint32 (toUint32 idx))
  else if h.ToLower param.Typ = ascii "int64_array" then
    match (splitComma param.Val).mapM atoi with
    | none => Except.error (Res.ret false (some "strconv.ParseInt") vm)
    | some tmparr =>
      match h.StorageData vm (StoreArg.int64s tmparr) with
      | (Except.error err, vm1) => Except.error (Res.ret false (some err) vm1)
      | (Except.ok idx, vm1) => Except.ok (vm1, buff ++ putUint64 (toUint64 idx))
  else if h.ToLower param.Typ = ascii "string" then
    match h.StorageData vm (StoreArg.str param.Val) with
    | (Except.error err, vm1) => Except.error (Res.ret false (some err) vm1)
    | (Except.ok idx, vm1) => Except.ok (vm1, buff ++ putUint32 (toUint32 idx))
  else
    Except.error (Res.ret false (some ("unsupported type :" ++ goString param.Typ)) vm)

/-- The `for` loop of `jsonUnmashal` over the parameters still to do. -/
def jsonUnmashalLoop (h : Host) : VM → List UInt8 → List Param → Except Res (VM × List UInt8)
  | vm, buff, [] => Except.ok (vm, buff)
  | vm, buff, param :: rest =>
    match jsonUnmashalParam h vm buff param with
    | Except.error r => Except.error r
    | Except.ok (vm1, buff1) => jsonUnmashalLoop h vm1 buff1 rest

/-- The handler `jsonUnmashal`, registered as `JsonUnmashal`. -/
def jsonUnmashal (h : Host) (vm : VM) : Res :=
  match vm.envFunc.envFuncParam with
  | [addr, _, jsonaddr] =>
    match h.GetData vm jsonaddr with
    | Except.error err => Res.ret false (some err) vm
    | Except.ok jsonbytes =>
      match h.jsonUnmarshalParamList jsonbytes.elems with
      | Except.error err => Res.ret false (some err) vm
      | Except.ok paramList =>
        match jsonUnmashalLoop h vm [] paramList with
        | Except.error r => r
        | Except.ok (vm1, bytes) =>
          if addInt (toInt addr) (bytes.length : Int) > (vm1.memory.length : Int) then
            Res.ret false (some "out of memory") vm1
          else
            match sliceOf vm1.memory (toInt addr) (addInt (toInt addr) (bytes.length : Int)) with
            | none => Res.fault
            | some _ =>
              Res.ret true none
                { vm1 with
                  memory := copyInto vm1.memory (toInt addr).toNat
                    (addInt (toInt addr) (bytes.length : Int)).toNat bytes
                  ctx := vm1.envFunc.envFuncCtx }
  | _ => Res.ret false (some "parameter count error while call jsonUnmashal") vm

/-- The `switch pstype` of `jsonMashal`: the early return of a branch, or
the value of `ret.Val` after it.  The array branches read element `i` from
`tmp[i : i+4]`, resp. `tmp[i : i+8]`; when no case matches, `ret.Val` keeps its
zero value, the empty string. -/
def jsonMashalVal (h : Host) (vm : VM) (val : Nat) (pstype : List UInt8) :
    Except Res (List UInt8) :=
  if pstype = ascii "int" then Except.ok (itoa (toInt val))
  else if pstype = ascii "int64" then Except.ok (itoa (toInt val))
  else if pstype = ascii "string" then
    match h.GetData vm val with
    | Except.error err => Except.error (Res.ret false (some err) vm)
    | Except.ok tmp => Except.ok tmp.elems
  else if pstype = ascii "int_array" then
    match h.GetData vm val with
    | Except.error err => Except.error (Res.ret false (some err) vm)
    | Except.ok tmp =>
      match (List.range (tmp.len / 4)).mapM
          (fun i => (tmp.slice i (i + 4)).bind leUint32) with
      | none => Except.error Res.fault
      | some elems => Except.ok (joinComma (elems.map (fun e => itoa (e : Int))))
  else if pstype = ascii "int64_array" then
    match h.GetData vm val with
    | Except.error err => Except.error (Res.ret false (some err) vm)
    | Except.ok tmp =>
      match (List.range (tmp.len / 8)).mapM
          (fun i => (tmp.slice i (i + 8)).bind leUint64) with
      | none => Except.error Res.fault
      | some elems => Except.ok (joinComma (elems.map (fun e => itoa (toInt e))))
  else Except.ok []

/-- The handler `jsonMashal`, registered as `JsonMashal`. -/
def jsonMashal (h : Host) (vm : VM) : Res :=
  match vm.envFunc.envFuncParam with
  | [val, ptype] =>
    match h.GetData vm ptype with
    | Except.error err => Res.ret false (some err) vm
    | Except.ok tpstr =>
      let pstype := h.ToLower (h.BytesToString tpstr.elems)
      match jsonMashalVal h vm val pstype with
      | Except.error r => r
      | Except.ok v =>
        match h.jsonMarshalRtn { Typ := pstype, Val := v } with
        | Except.error err => Res.ret false (some err) vm
        | Except.ok jsonstr =>
          match h.StorageData vm (StoreArg.str jsonstr) with
          | (Except.error err, vm1) => Res.ret false (some err) vm1
          | (Except.ok offset, vm1) => Res.ret true none (vm1.restoreAndPush (toUint64 offset))
  | _ => Res.ret false (some "parameter count error while call jsonUnmashal") vm

/-! ## Dispatch -/

/-- The Go function that an identifier of `HostFn` names, applied to the VM. -/
def callHandler (h : Host) : HostFn → VM → Res
  | HostFn.calloc => calloc h
  | HostFn.malloc => malloc h
  | HostFn.arrayLen => arrayLen
  | HostFn.memcpy => memcpy
  | HostFn.memset => memset
  | HostFn.readMessage => readMessage h
  | HostFn.readInt32Param => readInt32Param h
  | HostFn.readInt64Param => readInt64Param h
  | HostFn.readStringParam => readStringParam h
  | HostFn.rawUnmashal => rawUnmashal h
  | HostFn.jsonUnmashal => jsonUnmashal h
  | HostFn.jsonMashal => jsonMashal h
  | HostFn.stringcmp => stringcmp h
  | HostFn.getStrValue => getStrValue h
  | HostFn.setStrValue => setStrValue h
  | HostFn.removeStrValue => removeStrValue h
  | HostFn.printi => printi
  | HostFn.prints => prints
  | HostFn.getParam => getParam
  | HostFn.callTrx => callTrx h
  | HostFn.recvTrx => recvTrx h
  | HostFn.parseParam => parseParam

/-- The parameter count of each registered handler: the count tested by the
handler, and for `printi` and `prints`, which test none, the number of
parameter words they read. -/
def declaredArity : HostFn → Nat
  | HostFn.stringcmp => 2
  | HostFn.malloc => 1
  | HostFn.arrayLen => 1
  | HostFn.memcpy => 3
  | HostFn.memset => 3
  | HostFn.jsonUnmashal => 3
  | HostFn.jsonMashal => 2
  | HostFn.printi => 1
  | HostFn.prints => 2
  | HostFn.getStrValue => 8
  | HostFn.setStrValue => 6
  | HostFn.removeStrValue => 4
  | HostFn.getParam => 2
  | HostFn.callTrx => 4
  | HostFn.recvTrx => 2
  | HostFn.parseParam => 2
  | HostFn.calloc => 2
  | HostFn.readMessage => 2
  | HostFn.readInt32Param => 1
  | HostFn.readInt64Param => 1
  | HostFn.readStringParam => 1
  | HostFn.rawUnmashal => 3

/-! ## Spec-side definitions and concrete states -/

/-- Spec-side encoder, written from the words of the spec (there is no encoder
in `env_func.go`): the length as one byte below `0xFD`, else `0xFD` and two
little-endian bytes when it fits 16 bits, else `0xFE` and four little-endian
bytes when it fits 32 bits, else `0xFF` and eight little-endian bytes; then the
bytes of the string. -/
def encodeStringSpec (s : List UInt8) : List UInt8 :=
  let n := s.length
  let le (w : Nat) : List UInt8 := (List.range w).map (fun i => UInt8.ofNat (n / 256 ^ i % 256))
  if n < 253 then UInt8.ofNat n :: s
  else if n < 65536 then (0xfd : UInt8) :: (le 2 ++ s)
  else if n < 4294967296 then (0xfe : UInt8) :: (le 4 ++ s)
  else (0xff : UInt8) :: (le 8 ++ s)

/-- A VM with empty memory and no type tags, used to build concrete states. -/
def VM.blank : VM :=
  { envFunc :=
      { envFuncMap := fun _ => none
        envFuncCtx := { id := 0 }
        envFuncParam := []
        envFuncRtn := false
        envFuncParamIdx := 0
        envMethod := "" }
    memory := []
    memType := fun _ => none
    ctx := { id := 0 }
    stack := []
    contract :=
      { RoleIntf := 0
        ContractDB := { id := 0 }
        Trx :=
          { Version := 1
            CursorNum := 0
            CursorLabel := 0
            Lifetime := 0
            Sender := [0x75]
            Contract := [0x63]
            Method := [0x6d]
            Param := []
            SigAlg := 1
            Signature := [] } }
    subCtnLst := []
    subTrxLst := []
    callWid := 0
    vmChannel := [] }

/-- A host whose accessor always returns the buffer `b` and whose allocator
accepts a byte string by making it the memory of the VM, returning index 0;
it makes the bytes handed to `StorageData` observable. -/
def Host.recording (b : GoSlice) : Host :=
  { GetData := fun _ _ => Except.ok b
    StorageData := fun vm a =>
      match a with
      | StoreArg.bytes bs => (Except.ok 0, { vm with memory := bs })
      | _ => (Except.error "unsupported", vm)
    getStoragePos := fun vm _ _ => (Except.error "unsupported", vm)
    GetMsgBytes := fun _ => Except.error "unsupported"
    BytesToString := fun bs => bs
    ToLower := fun bs => bs
    jsonUnmarshalParamList := fun _ => Except.error "unsupported"
    jsonMarshalRtn := fun _ => Except.error "unsupported"
    jsonUnmarshalContext := fun _ => Except.error "unsupported"
    GetStrValue := fun _ _ _ _ => Except.error "unsupported"
    SetStrValue := fun db _ _ _ _ => (some "unsupported", db)
    RemoveStrValue := fun db _ _ _ => (some "unsupported", db) }

/-- The VM state with parameter list `params` and cursor `idx`. -/
def VM.withFrame (vm : VM) (params : List Nat) (idx : Nat) : VM :=
  { vm with envFunc := { vm.envFunc with envFuncParam := params, envFuncParamIdx := idx } }

/-- A VM state with memory `mem`, parameter words `params`, a caller that
expects a return value, saved context 7 and current context 3. -/
def VM.sample (mem : List UInt8) (params : List Nat) : VM :=
  { envFunc :=
      { envFuncMap := fun _ => none
        envFuncCtx := { id := 7 }
        envFuncParam := params
        envFuncRtn := true
        envFuncParamIdx := 0
        envMethod := "" }
    memory := mem
    memType := fun _ => none
    ctx := { id := 3 }
    stack := []
    contract :=
      { RoleIntf := 0
        ContractDB := { id := 0 }
        Trx :=
          { Version := 1
            CursorNum := 0
            CursorLabel := 0
            Lifetime := 0
            Sender := [0x75]
            Contract := [0x63]
            Method := [0x6d]
            Param := []
            SigAlg := 1
            Signature := [] } }
    subCtnLst := []
    subTrxLst := []
    callWid := 0
    vmChannel := [] }

/-- Spec-side element width of a semantic type, written from the words of the
spec: 1 for Int8, String and Unknown, 2 for Int16, 4 for Int32 and Float32,
8 for Int64 and Float64; no width for an unrecognised type. -/
def elementWidthSpec : DataType → Option Nat
  | DataType.Int8 | DataType.String | DataType.Unknown => some 1
  | DataType.Int16 => some 2
  | DataType.Int32 | DataType.Float32 => some 4
  | DataType.Int64 | DataType.Float64 => some 8
  | DataType.other _ => none

/-- Spec-side value of a little-endian byte string: the first byte is the
least significant. -/
def leValueSpec : List UInt8 → Nat
  | [] => 0
  | b :: bs => b.toNat + 256 * leValueSpec bs

/-- The VM state `vm` with the type tag `tl` recorded at address `addr`. -/
def VM.withTag (vm : VM) (addr : Nat) (tl : typeInfo) : VM :=
  { vm with memType := fun a => if a = addr then some tl else vm.memType a }

/-- Lower-casing of the ASCII letters of a byte string. -/
def asciiLower (b : List UInt8) : List UInt8 :=
  b.map (fun c => if 0x41 ≤ c.toNat ∧ c.toNat ≤ 0x5a then UInt8.ofNat (c.toNat + 32) else c)

/-- The bytes that the allocator of `Host.basic` stores for a value: a byte
string as it is, an `[]int` as 4-byte and an `[]int64` as 8-byte little-endian
elements. -/
def StoreArg.pack : StoreArg → List UInt8
  | StoreArg.bytes b => b
  | StoreArg.str s => s
  | StoreArg.ints l => (l.map (fun i => putUint32 (toUint32 i))).flatten
  | StoreArg.int64s l => (l.map (fun i => putUint64 (toUint64 i))).flatten

/-- The semantic type that the allocator of `Host.basic` records for a
value. -/
def StoreArg.dataType : StoreArg → DataType
  | StoreArg.bytes _ => DataType.Int8
  | StoreArg.str _ => DataType.String
  | StoreArg.ints _ => DataType.Int32
  | StoreArg.int64s _ => DataType.Int64

/-- A concrete host, used to evaluate handlers.  The allocator appends to
memory and tags the new region; the accessor returns the tagged region at an
address; `json.Unmarshal` into a `ParamList` always yields `params`;
`json.Marshal` writes the type, a colon and the value; the store in state 0
fails every call, in state `n > 0` it holds a value of `n` bytes `0x76` under
every key and accepts writes and removals, moving to state `n + 1`. -/
def Host.basic (params : List Param) : Host :=
  { GetData := fun vm addr =>
      match vm.memType addr with
      | none => Except.error "data not found"
      | some tl =>
        match sliceOf vm.memory (addr : Int) ((addr : Int) + tl.Len) with
        | none => Except.error "data out of range"
        | some b => Except.ok { elems := b, spare := [] }
    StorageData := fun vm a =>
      (Except.ok (vm.memory.length : Int),
        { vm with
          memory := vm.memory ++ a.pack
          memType := fun p =>
            if p = vm.memory.length then some { Typ := a.dataType, Len := (a.pack.length : Int) }
            else vm.memType p })
    getStoragePos := fun vm size ty =>
      if size < 0 then (Except.error "invalid size", vm)
      else
        (Except.ok (vm.memory.length : Int),
          { vm with
            memory := vm.memory ++ List.replicate size.toNat 0
            memType := fun p =>
              if p = vm.memory.length then some { Typ := ty, Len := size } else vm.memType p })
    GetMsgBytes := fun _ => Except.ok []
    BytesToString := Bytes2String
    ToLower := asciiLower
    jsonUnmarshalParamList := fun _ => Except.ok params
    jsonMarshalRtn := fun r => Except.ok (r.Typ ++ 0x3a :: r.Val)
    jsonUnmarshalContext := fun _ => Except.ok ()
    GetStrValue := fun db _ _ _ =>
      if db.id = 0 then Except.error "store error" else Except.ok (List.replicate db.id 0x76)
    SetStrValue := fun db _ _ _ _ =>
      if db.id = 0 then (some "store error", db) else (none, { id := db.id + 1 })
    RemoveStrValue := fun db _ _ _ =>
      if db.id = 0 then (some "store error", db) else (none, { id := db.id + 1 }) }

/-- The VM state `vm` with the persistent store in state `n`. -/
def VM.withStore (vm : VM) (n : Nat) : VM :=
  { vm with contract := { vm.contract with ContractDB := { id := n } } }

/-- A VM state for `callTrx`: memory holds `bank`, a zero byte, `transfer`, a
zero byte and two parameter bytes; the two names are tagged as strings of 5
and 9 bytes; the parameter words are the positions of the names and the
position and length of the parameter bytes. -/
def VM.callSample : VM :=
  ((VM.sample (ascii "bank" ++ 0 :: (ascii "transfer" ++ [0, 0xc0, 0x01])) [0, 5, 14, 2]).withTag 0
    { Typ := DataType.String, Len := 5 }).withTag 5 { Typ := DataType.String, Len := 9 }

/-- A VM state for `jsonUnmashal` and `jsonMashal`: four bytes for the blob at
address 0, then at address 4 the text `int_array` and a zero byte, tagged as a
string of 10 bytes. -/
def VM.jsonSample (params : List Nat) : VM :=
  (VM.sample (0 :: 0 :: 0 :: 0 :: (ascii "int_array" ++ [0])) params).withTag 4
    { Typ := DataType.String, Len := 10 }

/-- A VM state for `jsonMashal` with a type tag outside the supported set: at
address 0 the text `float` and a zero byte, tagged as a string of 6 bytes. -/
def VM.floatSample (params : List Nat) : VM :=
  (VM.sample (ascii "float" ++ [0]) params).withTag 0 { Typ := DataType.String, Len := 6 }

/-- Spec-side list of the supported type tags of the typed-value document
marshaling. -/
def supportedTypesSpec : List (List UInt8) :=
  [ascii "int", ascii "int64", ascii "string", ascii "int_array", ascii "int64_array"]

/-- A VM state for `jsonUnmashal` with room for a blob of 28 bytes at address
0: 28 bytes `0xee`, then at address 28 two bytes tagged as a string. -/
def VM.blobSample (params : List Nat) : VM :=
  (VM.sample (List.replicate 28 0xee ++ [0x7b, 0x7d]) params).withTag 28
    { Typ := DataType.String, Len := 2 }

/-- Five parameters, one of each supported type. -/
def Param.oneOfEach : List Param :=
  [{ Typ := ascii "int", Val := ascii "7" }, { Typ := ascii "int64", Val := ascii "258" },
   { Typ := ascii "int_array", Val := ascii "1,2" }, { Typ := ascii "string", Val := ascii "ab" },
   { Typ := ascii "int64_array", Val := ascii "3" }]

/-- Spec-side width of the length prefix of an encoded string, by its first
byte: 3 for `0xFD`, 5 for `0xFE`, 9 for `0xFF`, 1 for a plain length byte. -/
def prefixWidthSpec (tag : UInt8) : Nat :=
  if tag = 0xfd then 3 else if tag = 0xfe then 5 else if tag = 0xff then 9 else 1

/-- The state `vm` with `p` as the parameter bytes of the active
transaction. -/
def VM.withTrxParam (vm : VM) (p : List UInt8) : VM :=
  { vm with contract := { vm.contract with Trx := { vm.contract.Trx with Param := p } } }

/-- A host like `Host.basic []` whose store keeps one namespace per owner: a
write or a removal is accepted (the store moves to its next state) when the
namespace is `owner` and refused with an error, the store unchanged, for any
other namespace. -/
def Host.guarded (owner : List UInt8) : Host :=
  { Host.basic [] with
    SetStrValue := fun db ns _ _ _ =>
      if ns = owner then (none, { id := db.id + 1 }) else (some "foreign namespace", db)
    RemoveStrValue := fun db ns _ _ =>
      if ns = owner then (none, { id := db.id + 1 }) else (some "foreign namespace", db) }

/-! ## Theorems: registry -/

theorem EnvFunc.Register_bound {H : Type} (env : EnvFunc H) (method : String) (handler h0 : H)
    (hb : env.envFuncMap method = some h0) : env.Register method handler = env := by
  simp [EnvFunc.Register, hb]

theorem EnvFunc.Register_unbound {H : Type} (env : EnvFunc H) (method : String) (handler : H)
    (hb : env.envFuncMap method = none) (k : String) :
    (env.Register method handler).envFuncMap k
      = if k = method then some handler else env.envFuncMap k := by
  simp [EnvFunc.Register, hb]

/-- C1: after `Register name h1`, a `Register name h2` changes nothing, so a
handler `h1` bound by the first call is still bound after the second;
`Register` on a bound name returns the registry as it was; `Register` on an
unbound name binds it to the given handler, which a later `Register` of that
name does not displace, and leaves every other binding as it was. -/
theorem register_first_wins {H : Type} (env : EnvFunc H) (name : String) (h1 h2 : H) :
    (env.Register name h1).Register name h2 = env.Register name h1
    ∧ ((env.Register name h1).envFuncMap name = some h1 →
        ((env.Register name h1).Register name h2).envFuncMap name = some h1)
    ∧ (∀ h0, env.envFuncMap name = some h0 → env.Register name h1 = env)
    ∧ (env.envFuncMap name = none →
        (env.Register name h1).envFuncMap name = some h1
        ∧ ((env.Register name h1).Register name h2).envFuncMap name = some h1
        ∧ ∀ other, other ≠ name →
            (env.Register name h1).envFuncMap other = env.envFuncMap other) := by
  have key : ∃ h0, (env.Register name h1).envFuncMap name = some h0 := by
    cases hb : env.envFuncMap name with
    | some h0 => exact ⟨h0, by rw [EnvFunc.Register_bound env name h1 h0 hb]; exact hb⟩
    | none => exact ⟨h1, by rw [EnvFunc.Register_unbound env name h1 hb]; simp⟩
  obtain ⟨h0, hh0⟩ := key
  have second : (env.Register name h1).Register name h2 = env.Register name h1 :=
    EnvFunc.Register_bound _ name h2 h0 hh0
  refine ⟨second, fun hf => by rw [second]; exact hf,
    fun h0 hb => EnvFunc.Register_bound env name h1 h0 hb, fun hb => ?_⟩
  have first : (env.Register name h1).envFuncMap name = some h1 := by
    rw [EnvFunc.Register_unbound env name h1 hb]; simp
  refine ⟨first, by rw [second]; exact first, fun other ho => ?_⟩
  rw [EnvFunc.Register_unbound env name h1 hb]
  simp [ho]

/-- Witness for C1 on the builtin registry and the unregistered name
`calloc`. -/
theorem register_first_wins_witness :
    NewEnvFunc.envFuncMap "calloc" = none
    ∧ ((NewEnvFunc.Register "calloc" HostFn.calloc).Register "calloc" HostFn.malloc).envFuncMap
        "calloc" = some HostFn.calloc :=
  ⟨by decide,
   ((register_first_wins NewEnvFunc "calloc" HostFn.calloc HostFn.malloc).2.2.2 (by decide)).2.1⟩

/-- C2: `Invoke` yields the not-found error with the VM untouched, whatever
the handlers would do, exactly when the name is unbound; when the name is
bound, `Invoke` is the bound handler applied to the VM. -/
theorem invoke_not_found_iff {H : Type} (env : EnvFunc H) (name : String) (vm : VM) :
    (env.envFuncMap name = none ↔
      ∀ call : H → VM → Res,
        env.Invoke call name vm
          = Res.ret false (some ("*ERROR* Failed to find method : " ++ name)) vm)
    ∧ (∀ fc, env.envFuncMap name = some fc →
        ∀ call : H → VM → Res, env.Invoke call name vm = call fc vm) := by
  refine ⟨⟨fun hb call => by simp [EnvFunc.Invoke, hb], fun hall => ?_⟩,
    fun fc hb call => by simp [EnvFunc.Invoke, hb]⟩
  cases hb : env.envFuncMap name with
  | none => rfl
  | some fc =>
    have h := hall (fun _ _ => Res.fault)
    simp [EnvFunc.Invoke, hb] at h

/-- Witness for C2 on the builtin registry: `memcpy` is bound, so `Invoke`
runs its handler; `calloc` is not, so `Invoke` reports it. -/
theorem invoke_not_found_iff_witness :
    (∀ call : HostFn → VM → Res,
        NewEnvFunc.Invoke call "memcpy" VM.blank = call HostFn.memcpy VM.blank)
    ∧ (∀ call : HostFn → VM → Res,
        NewEnvFunc.Invoke call "calloc" VM.blank
          = Res.ret false (some ("*ERROR* Failed to find method : " ++ "calloc")) VM.blank) :=
  ⟨(invoke_not_found_iff NewEnvFunc "memcpy" VM.blank).2 HostFn.memcpy (by decide),
   (invoke_not_found_iff NewEnvFunc "calloc" VM.blank).1.mp (by decide)⟩

/-- The map built by `NewEnvFunc`, written out: the last registration is
tested first. -/
theorem NewEnvFunc_envFuncMap (k : String) :
    NewEnvFunc.envFuncMap k =
      if k = "parseParam" then some HostFn.parseParam
      else if k = "recvTrx" then some HostFn.recvTrx
      else if k = "callTrx" then some HostFn.callTrx
      else if k = "getParam" then some HostFn.getParam
      else if k = "removeStrValue" then some HostFn.removeStrValue
      else if k = "setStrValue" then some HostFn.setStrValue
      else if k = "getStrValue" then some HostFn.getStrValue
      else if k = "prints" then some HostFn.prints
      else if k = "printi" then some HostFn.printi
      else if k = "memset" then some HostFn.memset
      else if k = "JsonMashal" then some HostFn.jsonMashal
      else if k = "JsonUnmashal" then some HostFn.jsonUnmashal
      else if k = "memcpy" then some HostFn.memcpy
      else if k = "arrayLen" then some HostFn.arrayLen
      else if k = "malloc" then some HostFn.malloc
      else if k = "strcmp" then some HostFn.stringcmp
      else none := by
  rfl

/-- Every row of `builtinTable` is a binding of the map built by
`NewEnvFunc`. -/
theorem NewEnvFunc_rows :
    ∀ p ∈ builtinTable, NewEnvFunc.envFuncMap p.1 = some p.2 := by
  decide

/-- A name outside `builtinTable` is unbound in the map built by
`NewEnvFunc`. -/
theorem NewEnvFunc_unbound (name : String) (hn : name ∉ builtinTable.map Prod.fst) :
    NewEnvFunc.envFuncMap name = none := by
  simp only [builtinTable, List.map, List.mem_cons, List.mem_nil_iff, not_or, or_false] at hn
  obtain ⟨h1, h2, h3, h4, h5, h6, h7, h8, h9, h10, h11, h12, h13, h14, h15, h16⟩ := hn
  rw [NewEnvFunc_envFuncMap, if_neg h16, if_neg h15, if_neg h14, if_neg h13, if_neg h12,
    if_neg h11, if_neg h10, if_neg h9, if_neg h8, if_neg h7, if_neg h6, if_neg h5, if_neg h4,
    if_neg h3, if_neg h2, if_neg h1]

/-- C3: the registry built by `NewEnvFunc` binds a name to a handler exactly
when the pair is one of the sixteen rows of `builtinTable` (sixteen distinct
names, each with the handler of that name), and `Invoke` on it fails with the
not-found error for every other name, among them `calloc`, `readMessage` and
`readStringParam`. -/
theorem newEnvFunc_binds_exactly_builtins :
    (∀ name fc, NewEnvFunc.envFuncMap name = some fc ↔ (name, fc) ∈ builtinTable)
    ∧ builtinTable.map Prod.fst =
        ["strcmp", "malloc", "arrayLen", "memcpy", "memset", "JsonUnmashal", "JsonMashal",
         "printi", "prints", "getStrValue", "setStrValue", "removeStrValue", "getParam",
         "callTrx", "recvTrx", "parseParam"]
    ∧ builtinTable.length = 16
    ∧ (builtinTable.map Prod.fst).Nodup
    ∧ (∀ (call : HostFn → VM → Res) (vm : VM) (name : String),
        name ∉ builtinTable.map Prod.fst →
        NewEnvFunc.Invoke call name vm
          = Res.ret false (some ("*ERROR* Failed to find method : " ++ name)) vm)
    ∧ (∀ (call : HostFn → VM → Res) (vm : VM),
        NewEnvFunc.Invoke call "calloc" vm
          = Res.ret false (some "*ERROR* Failed to find method : calloc") vm
        ∧ NewEnvFunc.Invoke call "readMessage" vm
          = Res.ret false (some "*ERROR* Failed to find method : readMessage") vm
        ∧ NewEnvFunc.Invoke call "readStringParam" vm
          = Res.ret false (some "*ERROR* Failed to find method : readStringParam") vm) := by
  have hinv : ∀ (call : HostFn → VM → Res) (vm : VM) (name : String),
      name ∉ builtinTable.map Prod.fst →
      NewEnvFunc.Invoke call name vm
        = Res.ret false (some ("*ERROR* Failed to find method : " ++ name)) vm := by
    intro call vm name hn
    simp only [EnvFunc.Invoke, NewEnvFunc_unbound name hn]
  refine ⟨fun name fc => ⟨fun h => ?_, fun h => NewEnvFunc_rows (name, fc) h⟩, rfl, rfl,
    by decide, hinv, fun call vm => ⟨?_, ?_, ?_⟩⟩
  · by_cases hn : name ∈ builtinTable.map Prod.fst
    · obtain ⟨p, hp, hpn⟩ := List.mem_map.mp hn
      have hrow := NewEnvFunc_rows p hp
      rw [hpn, h] at hrow
      have hfc : fc = p.2 := Option.some.inj hrow
      have hpe : p = (name, fc) := by rw [hfc, ← hpn]
      rw [← hpe]
      exact hp
    · rw [NewEnvFunc_unbound name hn] at h
      exact absurd h (by simp)
  · exact hinv call vm "calloc" (by decide)
  · exact hinv call vm "readMessage" (by decide)
  · exact hinv call vm "readStringParam" (by decide)

/-- Witness for C3: `calloc` is none of the sixteen names, so `Invoke` on the
builtin registry reports it as not found. -/
theorem newEnvFunc_binds_exactly_builtins_witness :
    "calloc" ∉ builtinTable.map Prod.fst
    ∧ NewEnvFunc.Invoke (fun _ _ => Res.fault) "calloc" VM.blank
        = Res.ret false (some ("*ERROR* Failed to find method : " ++ "calloc")) VM.blank :=
  ⟨by decide,
   newEnvFunc_binds_exactly_builtins.2.2.2.2.1 (fun _ _ => Res.fault) VM.blank "calloc"
     (by decide)⟩

/-! ## Theorems: linear memory -/

theorem toInt_of_lt (u : Nat) (h : u < 9223372036854775808) : toInt u = (u : Int) := by
  unfold toInt
  split <;> omega

theorem addInt_of_lt (a b : Nat) (h : a + b < 9223372036854775808) :
    addInt (a : Int) (b : Int) = ((a + b : Nat) : Int) := by
  unfold addInt wrapInt
  omega

theorem sliceOf_in_range (s : List UInt8) (lo n : Nat) (h : lo + n ≤ s.length) :
    sliceOf s (lo : Int) ((lo + n : Nat) : Int) = some ((s.drop lo).take n) := by
  unfold sliceOf
  rw [if_pos (by omega), Int.toNat_natCast, Int.toNat_natCast, Nat.add_sub_cancel_left]

theorem copyInto_length (s : List UInt8) (lo n : Nat) (src : List UInt8)
    (h : lo + n ≤ s.length) (hs : src.length = n) :
    (copyInto s lo (lo + n) src).length = s.length := by
  simp only [copyInto, List.length_append, List.length_take, List.length_drop]
  omega

theorem copyInto_inside (s : List UInt8) (lo n : Nat) (src : List UInt8)
    (h : lo + n ≤ s.length) (hs : src.length = n) (i : Nat) (hi : i < n) :
    (copyInto s lo (lo + n) src)[lo + i]? = src[i]? := by
  have h1 : (s.take lo).length = lo := by rw [List.length_take]; omega
  have h2 : (src.take (lo + n - lo)).length = n := by rw [List.length_take]; omega
  unfold copyInto
  rw [List.append_assoc, List.getElem?_append_right (by omega), h1,
    List.getElem?_append_left (by omega), List.getElem?_take_of_lt (by omega)]
  congr 1
  omega

theorem copyInto_outside (s : List UInt8) (lo n : Nat) (src : List UInt8)
    (h : lo + n ≤ s.length) (hs : src.length = n) (j : Nat) (hj : j < lo ∨ lo + n ≤ j) :
    (copyInto s lo (lo + n) src)[j]? = s[j]? := by
  have h1 : (s.take lo).length = lo := by rw [List.length_take]; omega
  have h2 : (src.take (lo + n - lo)).length = n := by rw [List.length_take]; omega
  unfold copyInto
  rcases hj with hj | hj
  · rw [List.append_assoc, List.getElem?_append_left (by omega), List.getElem?_take_of_lt hj]
  · rw [List.getElem?_append_right (by rw [List.length_append]; omega), List.length_append,
      h1, h2, List.getElem?_drop]
    congr 1
    omega

theorem VM.restoreAndPush_memory (vm : VM) (r : Nat) :
    (vm.restoreAndPush r).memory = vm.memory := by
  simp only [VM.restoreAndPush, VM.pushUint64]
  split <;> rfl

theorem VM.restoreAndPush_memType (vm : VM) (r : Nat) :
    (vm.restoreAndPush r).memType = vm.memType := by
  simp only [VM.restoreAndPush, VM.pushUint64]
  split <;> rfl

theorem VM.restoreAndPush_envFunc (vm : VM) (r : Nat) :
    (vm.restoreAndPush r).envFunc = vm.envFunc := by
  simp only [VM.restoreAndPush, VM.pushUint64]
  split <;> rfl

theorem VM.restoreAndPush_ctx (vm : VM) (r : Nat) :
    (vm.restoreAndPush r).ctx = vm.envFunc.envFuncCtx := by
  simp only [VM.restoreAndPush, VM.pushUint64]
  split <;> rfl

theorem VM.restoreAndPush_stack (vm : VM) (r : Nat) :
    (vm.restoreAndPush r).stack = if vm.envFunc.envFuncRtn then vm.stack ++ [r] else vm.stack := by
  simp only [VM.restoreAndPush, VM.pushUint64]
  split <;> rfl

/-- The outcome of `memcpy` on in-range arguments that do not overlap
forwards. -/
theorem memcpy_copies (vm : VM) (dest src length : Nat)
    (hp : vm.envFunc.envFuncParam = [dest, src, length])
    (hd : dest + length ≤ vm.memory.length) (hs : src + length ≤ vm.memory.length)
    (hm : vm.memory.length < 9223372036854775808)
    (hov : ¬ (dest < src ∧ dest + length > src)) :
    memcpy vm = Res.ret true none
      (VM.restoreAndPush
        { vm with
          memory := copyInto vm.memory dest (dest + length) ((vm.memory.drop src).take length) }
        1) := by
  have hdI : toInt dest = (dest : Int) := toInt_of_lt dest (by omega)
  have hsI : toInt src = (src : Int) := toInt_of_lt src (by omega)
  have hlI : toInt length = (length : Int) := toInt_of_lt length (by omega)
  have hdl : addInt (dest : Int) (length : Int) = ((dest + length : Nat) : Int) :=
    addInt_of_lt dest length (by omega)
  have hsl : addInt (src : Int) (length : Int) = ((src + length : Nat) : Int) :=
    addInt_of_lt src length (by omega)
  unfold memcpy
  simp only [hp, hdI, hsI, hlI, hdl, hsl]
  rw [if_neg (by omega), sliceOf_in_range vm.memory dest length hd,
    sliceOf_in_range vm.memory src length hs]
  simp only [Int.toNat_natCast]

/-- The outcome of `memcpy` on in-range arguments that overlap forwards. -/
theorem memcpy_overlapped (vm : VM) (dest src length : Nat)
    (hp : vm.envFunc.envFuncParam = [dest, src, length])
    (hd : dest + length ≤ vm.memory.length) (hs : src + length ≤ vm.memory.length)
    (hm : vm.memory.length < 9223372036854775808)
    (hov : dest < src ∧ dest + length > src) :
    memcpy vm = Res.ret false (some "memcpy overlapped") vm := by
  have hdI : toInt dest = (dest : Int) := toInt_of_lt dest (by omega)
  have hsI : toInt src = (src : Int) := toInt_of_lt src (by omega)
  have hlI : toInt length = (length : Int) := toInt_of_lt length (by omega)
  have hdl : addInt (dest : Int) (length : Int) = ((dest + length : Nat) : Int) :=
    addInt_of_lt dest length (by omega)
  have hsl : addInt (src : Int) (length : Int) = ((src + length : Nat) : Int) :=
    addInt_of_lt src length (by omega)
  unfold memcpy
  simp only [hp, hdI, hsI, hlI, hdl, hsl]
  rw [if_pos (by omega)]

/-- C4: with both ranges inside memory, `memcpy` returns the overlap error
and leaves the VM as it was exactly when `dest < src` and
`dest + length > src`; in every other ordering it succeeds, each byte
`dest + i` then holds what byte `src + i` held before, and the bytes outside
`[dest, dest + length)` are as before. -/
theorem memcpy_in_range (vm : VM) (dest src length : Nat)
    (hp : vm.envFunc.envFuncParam = [dest, src, length])
    (hd : dest + length ≤ vm.memory.length) (hs : src + length ≤ vm.memory.length)
    (hm : vm.memory.length < 9223372036854775808) :
    (memcpy vm = Res.ret false (some "memcpy overlapped") vm ↔ (dest < src ∧ dest + length > src))
    ∧ (¬ (dest < src ∧ dest + length > src) →
        ∃ vm1 : VM, memcpy vm = Res.ret true none vm1
          ∧ vm1.memory.length = vm.memory.length
          ∧ (∀ i, i < length → vm1.memory[dest + i]? = vm.memory[src + i]?)
          ∧ (∀ j, j < dest ∨ dest + length ≤ j → vm1.memory[j]? = vm.memory[j]?)
          ∧ vm1.memType = vm.memType
          ∧ vm1.envFunc = vm.envFunc
          ∧ vm1.ctx = vm.envFunc.envFuncCtx
          ∧ vm1.stack = if vm.envFunc.envFuncRtn then vm.stack ++ [1] else vm.stack) := by
  have hsrc : ((vm.memory.drop src).take length).length = length := by
    rw [List.length_take, List.length_drop]; omega
  by_cases hov : dest < src ∧ dest + length > src
  · exact ⟨⟨fun _ => hov, fun _ => memcpy_overlapped vm dest src length hp hd hs hm hov⟩,
      fun hn => absurd hov hn⟩
  · have hS := memcpy_copies vm dest src length hp hd hs hm hov
    refine ⟨⟨fun h => ?_, fun h => absurd h hov⟩, fun _ => ⟨_, hS, ?_, ?_, ?_, ?_, ?_, ?_, ?_⟩⟩
    · rw [hS] at h
      exact absurd (Res.ret.inj h).1 (by decide)
    · rw [VM.restoreAndPush_memory]
      exact copyInto_length vm.memory dest length _ hd hsrc
    · intro i hi
      rw [VM.restoreAndPush_memory]
      have h3 := copyInto_inside vm.memory dest length _ hd hsrc i hi
      rw [List.getElem?_take_of_lt hi, List.getElem?_drop] at h3
      exact h3
    · intro j hj
      rw [VM.restoreAndPush_memory]
      exact copyInto_outside vm.memory dest length _ hd hsrc j hj
    · rw [VM.restoreAndPush_memType]
    · rw [VM.restoreAndPush_envFunc]
    · rw [VM.restoreAndPush_ctx]
    · rw [VM.restoreAndPush_stack]

/-- Witness for C4: six bytes of memory, `dest = 2`, `src = 0`, `length = 3`
(the ranges overlap with `dest` above `src`). -/
theorem memcpy_in_range_witness :
    (memcpy (VM.sample [10, 11, 12, 13, 14, 15] [2, 0, 3])
        = Res.ret false (some "memcpy overlapped") (VM.sample [10, 11, 12, 13, 14, 15] [2, 0, 3])
      ↔ (2 < 0 ∧ 2 + 3 > 0))
    ∧ (¬ (2 < 0 ∧ 2 + 3 > 0) →
        ∃ vm1 : VM, memcpy (VM.sample [10, 11, 12, 13, 14, 15] [2, 0, 3]) = Res.ret true none vm1
          ∧ vm1.memory.length = (VM.sample [10, 11, 12, 13, 14, 15] [2, 0, 3]).memory.length
          ∧ (∀ i, i < 3 → vm1.memory[2 + i]?
              = (VM.sample [10, 11, 12, 13, 14, 15] [2, 0, 3]).memory[0 + i]?)
          ∧ (∀ j, j < 2 ∨ 2 + 3 ≤ j → vm1.memory[j]?
              = (VM.sample [10, 11, 12, 13, 14, 15] [2, 0, 3]).memory[j]?)
          ∧ vm1.memType = (VM.sample [10, 11, 12, 13, 14, 15] [2, 0, 3]).memType
          ∧ vm1.envFunc = (VM.sample [10, 11, 12, 13, 14, 15] [2, 0, 3]).envFunc
          ∧ vm1.ctx = (VM.sample [10, 11, 12, 13, 14, 15] [2, 0, 3]).envFunc.envFuncCtx
          ∧ vm1.stack =
              if (VM.sample [10, 11, 12, 13, 14, 15] [2, 0, 3]).envFunc.envFuncRtn then
                (VM.sample [10, 11, 12, 13, 14, 15] [2, 0, 3]).stack ++ [1]
              else (VM.sample [10, 11, 12, 13, 14, 15] [2, 0, 3]).stack) :=
  memcpy_in_range (VM.sample [10, 11, 12, 13, 14, 15] [2, 0, 3]) 2 0 3 rfl (by decide)
    (by decide) (by decide)

/-- C5: on a four-byte memory, `memcpy` with `dest = 2`, `src = 0`,
`length = 4` and `memset` with `dest = 2`, `cnt = 4` (both with
`dest + length = 6` beyond the memory size) do not return an error: the slice
expression `vm.memory[dest:dest+length]` panics.  With `dest = 0`, `src = 3`,
`length = 2` the source range ends beyond the memory and `memcpy` panics as
well. -/
theorem memcpy_memset_out_of_range_fault :
    memcpy (VM.sample [1, 2, 3, 4] [2, 0, 4]) = Res.fault
    ∧ memcpy (VM.sample [1, 2, 3, 4] [0, 3, 2]) = Res.fault
    ∧ memset (VM.sample [1, 2, 3, 4] [2, 0, 4]) = Res.fault := by
  refine ⟨?_, ?_, ?_⟩ <;> rfl

theorem arrayLenValue_eq (memType : Nat → Option typeInfo) (p : Nat) :
    arrayLenValue memType p =
      match memType p with
      | none => 0
      | some tl =>
        match elementWidthSpec tl.Typ with
        | none => 0
        | some w => toUint64 (Int.tdiv tl.Len (w : Int)) := by
  unfold arrayLenValue
  cases hm : memType p with
  | none => rfl
  | some tl =>
    obtain ⟨ty, len⟩ := tl
    cases ty <;> rfl

theorem toUint64_natCast (q : Nat) (h : q < 18446744073709551616) :
    toUint64 (q : Int) = q := by
  unfold toUint64
  omega

theorem toUint64_tdiv_nonneg (len : Int) (w : Nat) (h0 : 0 ≤ len)
    (h1 : len < 18446744073709551616) :
    toUint64 (Int.tdiv len (w : Int)) = len.toNat / w := by
  obtain ⟨n, rfl⟩ := Int.eq_ofNat_of_zero_le h0
  rw [Int.tdiv_eq_ediv h0 (Int.ofNat_nonneg w), Int.toNat_natCast, ← Int.ofNat_ediv]
  have h3 : n / w ≤ n := Nat.div_le_self n w
  exact toUint64_natCast (n / w) (by omega)

/-- C6: with one parameter word `p`, `arrayLen` succeeds, leaves memory and
the tag table as they were and pushes (when a result is expected) the value
`arrayLenValue`: 0 when no tag is recorded at `p` or its type has no element
width, else the tagged length divided by the element width of its type
(truncated integer division, converted to `uint64`; for a non-negative length
this is the quotient of natural numbers).  A tag of type Int32 and length 12
gives 3. -/
theorem arrayLen_spec (vm : VM) (p : Nat) (hp : vm.envFunc.envFuncParam = [p]) :
    arrayLen vm = Res.ret true none (vm.restoreAndPush (arrayLenValue vm.memType p))
    ∧ (vm.restoreAndPush (arrayLenValue vm.memType p)).memory = vm.memory
    ∧ (vm.restoreAndPush (arrayLenValue vm.memType p)).memType = vm.memType
    ∧ (vm.restoreAndPush (arrayLenValue vm.memType p)).stack
        = (if vm.envFunc.envFuncRtn then vm.stack ++ [arrayLenValue vm.memType p] else vm.stack)
    ∧ (vm.memType p = none → arrayLenValue vm.memType p = 0)
    ∧ (∀ tl, vm.memType p = some tl → elementWidthSpec tl.Typ = none →
        arrayLenValue vm.memType p = 0)
    ∧ (∀ tl w, vm.memType p = some tl → elementWidthSpec tl.Typ = some w →
        arrayLenValue vm.memType p = toUint64 (Int.tdiv tl.Len (w : Int))
        ∧ (0 ≤ tl.Len → tl.Len < 9223372036854775808 →
            arrayLenValue vm.memType p = tl.Len.toNat / w))
    ∧ (vm.memType p = some { Typ := DataType.Int32, Len := 12 } →
        arrayLenValue vm.memType p = 3) := by
  refine ⟨?_, VM.restoreAndPush_memory _ _, VM.restoreAndPush_memType _ _,
    VM.restoreAndPush_stack _ _, ?_, ?_, ?_, ?_⟩
  · unfold arrayLen
    rw [hp]
  · intro hn
    rw [arrayLenValue_eq, hn]
  · intro tl ht hw
    rw [arrayLenValue_eq, ht]
    simp only [hw]
  · intro tl w ht hw
    have hv : arrayLenValue vm.memType p = toUint64 (Int.tdiv tl.Len (w : Int)) := by
      rw [arrayLenValue_eq, ht]
      simp only [hw]
    refine ⟨hv, fun h0 h1 => ?_⟩
    rw [hv]
    exact toUint64_tdiv_nonneg tl.Len w h0 (by omega)
  · intro ht
    rw [arrayLenValue_eq, ht]
    rfl

/-- Witness for C6: a tag of type Int32 and length 12 at address 16. -/
theorem arrayLen_spec_witness :
    ((VM.sample [] [16]).withTag 16 { Typ := DataType.Int32, Len := 12 }).envFunc.envFuncParam
        = [16]
    ∧ arrayLen ((VM.sample [] [16]).withTag 16 { Typ := DataType.Int32, Len := 12 })
        = Res.ret true none
            (((VM.sample [] [16]).withTag 16 { Typ := DataType.Int32, Len := 12 }).restoreAndPush
              (arrayLenValue
                ((VM.sample [] [16]).withTag 16 { Typ := DataType.Int32, Len := 12 }).memType 16))
    ∧ arrayLenValue
        ((VM.sample [] [16]).withTag 16 { Typ := DataType.Int32, Len := 12 }).memType 16 = 3 :=
  ⟨rfl,
   (arrayLen_spec ((VM.sample [] [16]).withTag 16 { Typ := DataType.Int32, Len := 12 }) 16 rfl).1,
   (arrayLen_spec ((VM.sample [] [16]).withTag 16 { Typ := DataType.Int32, Len := 12 }) 16
      rfl).2.2.2.2.2.2.2 rfl⟩

/-! ## Theorems: sequential parameter stream -/

theorem GoSlice.slice_within (b : GoSlice) (p w : Nat) (h : p + w ≤ b.len) :
    b.slice p (p + w) = some ((b.elems.drop p).take w) := by
  unfold GoSlice.len at h
  unfold GoSlice.slice
  rw [if_pos ⟨by omega, by omega⟩, Nat.add_sub_cancel_left,
    List.drop_append_of_le_length (by omega),
    List.take_append_of_le_length (by rw [List.length_drop]; omega)]

theorem leUint32_eq (l : List UInt8) (h : l.length = 4) :
    leUint32 l = some (leValueSpec l) ∧ leValueSpec l < 4294967296 := by
  match l, h with
  | [b0, b1, b2, b3], _ =>
    have h0 := b0.toNat_lt
    have h1 := b1.toNat_lt
    have h2 := b2.toNat_lt
    have h3 := b3.toNat_lt
    simp only [leUint32, leValueSpec, Option.some.injEq]
    constructor <;> omega

theorem leUint64_eq (l : List UInt8) (h : l.length = 8) :
    leUint64 l = some (leValueSpec l) ∧ leValueSpec l < 18446744073709551616 := by
  match l, h with
  | [b0, b1, b2, b3, b4, b5, b6, b7], _ =>
    have h0 := b0.toNat_lt
    have h1 := b1.toNat_lt
    have h2 := b2.toNat_lt
    have h3 := b3.toNat_lt
    have h4 := b4.toNat_lt
    have h5 := b5.toNat_lt
    have h6 := b6.toNat_lt
    have h7 := b7.toNat_lt
    simp only [leUint64, leValueSpec, Option.some.injEq]
    constructor <;> omega

theorem length_take_drop (l : List UInt8) (p w : Nat) (h : p + w ≤ l.length) :
    ((l.drop p).take w).length = w := by
  rw [List.length_take, List.length_drop]
  omega

theorem readInt32Param_ok (h : Host) (vm : VM) (addr : Nat) (b : GoSlice)
    (hp : vm.envFunc.envFuncParam = [addr]) (hg : h.GetData vm addr = Except.ok b)
    (hl : vm.envFunc.envFuncParamIdx + 4 ≤ b.len) :
    readInt32Param h vm = Res.ret true none
      (VM.restoreAndPush
        { vm with
          envFunc := { vm.envFunc with envFuncParamIdx := vm.envFunc.envFuncParamIdx + 4 } }
        (leValueSpec ((b.elems.drop vm.envFunc.envFuncParamIdx).take 4))) := by
  unfold readInt32Param
  simp only [hp, hg]
  rw [if_neg (by omega), GoSlice.slice_within b _ 4 hl]
  simp only [Option.bind, (leUint32_eq _ (length_take_drop b.elems _ 4 hl)).1]

theorem readInt32Param_short (h : Host) (vm : VM) (addr : Nat) (b : GoSlice)
    (hp : vm.envFunc.envFuncParam = [addr]) (hg : h.GetData vm addr = Except.ok b)
    (hl : b.len < vm.envFunc.envFuncParamIdx + 4) :
    readInt32Param h vm = Res.ret false (some "read params error") vm := by
  unfold readInt32Param
  simp only [hp, hg]
  rw [if_pos (by omega)]

theorem readInt64Param_ok (h : Host) (vm : VM) (addr : Nat) (b : GoSlice)
    (hp : vm.envFunc.envFuncParam = [addr]) (hg : h.GetData vm addr = Except.ok b)
    (hl : vm.envFunc.envFuncParamIdx + 8 ≤ b.len) :
    readInt64Param h vm = Res.ret true none
      (VM.restoreAndPush
        { vm with
          envFunc := { vm.envFunc with envFuncParamIdx := vm.envFunc.envFuncParamIdx + 8 } }
        (leValueSpec ((b.elems.drop vm.envFunc.envFuncParamIdx).take 8))) := by
  unfold readInt64Param
  simp only [hp, hg]
  rw [if_neg (by omega), GoSlice.slice_within b _ 8 hl]
  simp only [Option.bind, (leUint64_eq _ (length_take_drop b.elems _ 8 hl)).1]

theorem readInt64Param_short (h : Host) (vm : VM) (addr : Nat) (b : GoSlice)
    (hp : vm.envFunc.envFuncParam = [addr]) (hg : h.GetData vm addr = Except.ok b)
    (hl : b.len < vm.envFunc.envFuncParamIdx + 8) :
    readInt64Param h vm = Res.ret false (some "read params error") vm := by
  unfold readInt64Param
  simp only [hp, hg]
  rw [if_pos (by omega)]

/-- C9: on a parameter buffer `b` and cursor `p`, `readInt32Param` (`w = 4`)
and `readInt64Param` (`w = 8`) succeed when `p + w ≤ len b`: the cursor
becomes `p + w` and the word pushed (when a result is expected) is the
little-endian value of `b[p .. p+w)`, which for the 32-bit reader is below
`2^32`; when fewer than `w` bytes remain they return the error
`read params error` and leave the VM, cursor included, as it was. -/
theorem readIntParam_spec (h : Host) (vm : VM) (addr : Nat) (b : GoSlice)
    (hp : vm.envFunc.envFuncParam = [addr]) (hg : h.GetData vm addr = Except.ok b) :
    (vm.envFunc.envFuncParamIdx + 4 ≤ b.len →
      ∃ vm1 : VM, readInt32Param h vm = Res.ret true none vm1
        ∧ vm1.envFunc.envFuncParamIdx = vm.envFunc.envFuncParamIdx + 4
        ∧ vm1.stack =
            (if vm.envFunc.envFuncRtn then
              vm.stack ++ [leValueSpec ((b.elems.drop vm.envFunc.envFuncParamIdx).take 4)]
            else vm.stack)
        ∧ leValueSpec ((b.elems.drop vm.envFunc.envFuncParamIdx).take 4) < 4294967296
        ∧ vm1.memory = vm.memory ∧ vm1.ctx = vm.envFunc.envFuncCtx)
    ∧ (b.len < vm.envFunc.envFuncParamIdx + 4 →
        readInt32Param h vm = Res.ret false (some "read params error") vm)
    ∧ (vm.envFunc.envFuncParamIdx + 8 ≤ b.len →
      ∃ vm1 : VM, readInt64Param h vm = Res.ret true none vm1
        ∧ vm1.envFunc.envFuncParamIdx = vm.envFunc.envFuncParamIdx + 8
        ∧ vm1.stack =
            (if vm.envFunc.envFuncRtn then
              vm.stack ++ [leValueSpec ((b.elems.drop vm.envFunc.envFuncParamIdx).take 8)]
            else vm.stack)
        ∧ leValueSpec ((b.elems.drop vm.envFunc.envFuncParamIdx).take 8) < 18446744073709551616
        ∧ vm1.memory = vm.memory ∧ vm1.ctx = vm.envFunc.envFuncCtx)
    ∧ (b.len < vm.envFunc.envFuncParamIdx + 8 →
        readInt64Param h vm = Res.ret false (some "read params error") vm) := by
  refine ⟨fun hl => ⟨_, readInt32Param_ok h vm addr b hp hg hl, ?_, ?_, ?_, ?_, ?_⟩,
    readInt32Param_short h vm addr b hp hg,
    fun hl => ⟨_, readInt64Param_ok h vm addr b hp hg hl, ?_, ?_, ?_, ?_, ?_⟩,
    readInt64Param_short h vm addr b hp hg⟩
  · rw [VM.restoreAndPush_envFunc]
  · rw [VM.restoreAndPush_stack]
  · exact (leUint32_eq _ (length_take_drop b.elems _ 4 hl)).2
  · rw [VM.restoreAndPush_memory]
  · rw [VM.restoreAndPush_ctx]
  · rw [VM.restoreAndPush_envFunc]
  · rw [VM.restoreAndPush_stack]
  · exact (leUint64_eq _ (length_take_drop b.elems _ 8 hl)).2
  · rw [VM.restoreAndPush_memory]
  · rw [VM.restoreAndPush_ctx]

/-- Witness for C9: the buffer `78 56 34 12 | 01 00 .. 00` read at cursor 0 by
the 32-bit reader gives `0x12345678` and cursor 4; a two-byte buffer is too
short for it. -/
theorem readIntParam_spec_witness :
    (∃ vm1 : VM,
      readInt32Param (Host.recording ⟨[0x78, 0x56, 0x34, 0x12, 1, 0, 0, 0, 0, 0, 0, 0], []⟩)
          (VM.sample [] [0]) = Res.ret true none vm1
        ∧ vm1.envFunc.envFuncParamIdx = 4
        ∧ vm1.stack = [305419896]
        ∧ leValueSpec [0x78, 0x56, 0x34, 0x12] < 4294967296
        ∧ vm1.memory = [] ∧ vm1.ctx = { id := 7 })
    ∧ readInt32Param (Host.recording ⟨[0x78, 0x56], []⟩) (VM.sample [] [0])
        = Res.ret false (some "read params error") (VM.sample [] [0]) :=
  ⟨(readIntParam_spec (Host.recording ⟨[0x78, 0x56, 0x34, 0x12, 1, 0, 0, 0, 0, 0, 0, 0], []⟩)
      (VM.sample [] [0]) 0 _ rfl rfl).1 (by decide),
   (readIntParam_spec (Host.recording ⟨[0x78, 0x56], []⟩)
      (VM.sample [] [0]) 0 _ rfl rfl).2.1 (by decide)⟩

theorem leUint16_eq (l : List UInt8) (h : 2 ≤ l.length) :
    leUint16 l = some (leValueSpec (l.take 2)) := by
  match l, h with
  | b0 :: b1 :: _, _ =>
    simp only [leUint16, List.take, leValueSpec, Option.some.injEq]
    omega

theorem readStringSwitch_plain (vm : VM) (b : GoSlice) (p : Nat) (tag : UInt8)
    (h1 : tag ≠ 0xfd) (h2 : tag ≠ 0xfe) (h3 : tag ≠ 0xff) :
    readStringSwitch vm b p tag = Except.ok (tag.toNat, p) := by
  unfold readStringSwitch
  rw [if_neg h1, if_neg h2, if_neg h3]

theorem readStringSwitch_fd (vm : VM) (b : GoSlice) (p : Nat) (h : p + 3 ≤ b.len) :
    readStringSwitch vm b p 0xfd
      = Except.ok (leValueSpec ((b.elems.drop (p + 1)).take 2), p + 3) := by
  unfold readStringSwitch
  rw [if_pos rfl, if_neg (by omega), GoSlice.slice_within b (p + 1) 2 (by omega)]
  simp only [Option.bind, leUint16_eq _ (le_of_eq (length_take_drop b.elems (p + 1) 2
    (by unfold GoSlice.len at h; omega)).symm)]
  rw [List.take_take]
  rfl

theorem readStringSwitch_fe (vm : VM) (b : GoSlice) (p : Nat) (h : p + 5 ≤ b.len) :
    readStringSwitch vm b p 0xfe
      = Except.ok (leValueSpec ((b.elems.drop (p + 1)).take 2), p + 5) := by
  unfold readStringSwitch
  rw [if_neg (by decide), if_pos rfl, if_neg (by omega),
    GoSlice.slice_within b (p + 1) 4 (by omega)]
  simp only [Option.bind, leUint16_eq _ (le_of_lt (Nat.lt_of_lt_of_eq (by decide : 2 < 4)
    (length_take_drop b.elems (p + 1) 4 (by unfold GoSlice.len at h; omega)).symm))]
  rw [List.take_take]
  rfl

theorem readStringSwitch_ff (vm : VM) (b : GoSlice) (p : Nat) (h : p + 9 ≤ b.len) :
    readStringSwitch vm b p 0xff
      = Except.ok (leValueSpec ((b.elems.drop (p + 1)).take 2), p + 9) := by
  unfold readStringSwitch
  rw [if_neg (by decide), if_neg (by decide), if_pos rfl, if_neg (by omega),
    GoSlice.slice_within b (p + 1) 8 (by omega)]
  simp only [Option.bind, leUint16_eq _ (le_of_lt (Nat.lt_of_lt_of_eq (by decide : 2 < 8)
    (length_take_drop b.elems (p + 1) 8 (by unfold GoSlice.len at h; omega)).symm))]
  rw [List.take_take]
  rfl

theorem readStringParam_after_switch (h : Host) (vm : VM) (addr : Nat) (b : GoSlice)
    (tag : UInt8) (length pidx : Nat)
    (hp : vm.envFunc.envFuncParam = [addr]) (hg : h.GetData vm addr = Except.ok b)
    (hi : b.index vm.envFunc.envFuncParamIdx = some tag)
    (hs : readStringSwitch vm b vm.envFunc.envFuncParamIdx tag = Except.ok (length, pidx)) :
    readStringParam h vm =
      if pidx + length > b.len then Res.ret false (some "read string failed") vm
      else
        match b.slice (vm.envFunc.envFuncParamIdx + 1) (pidx + (length + 1)) with
        | none => Res.fault
        | some stringbytes => readStringStore h vm (pidx + (length + 1)) stringbytes := by
  unfold readStringParam
  simp only [hp, hg, hi, hs]

theorem readStringParam_recording (b : GoSlice) (vm : VM) (addr : Nat) (tag : UInt8)
    (length pidx : Nat) (sb : List UInt8)
    (hp : vm.envFunc.envFuncParam = [addr])
    (hi : b.index vm.envFunc.envFuncParamIdx = some tag)
    (hs : readStringSwitch vm b vm.envFunc.envFuncParamIdx tag = Except.ok (length, pidx))
    (hl : pidx + length ≤ b.len)
    (hsl : b.slice (vm.envFunc.envFuncParamIdx + 1) (pidx + (length + 1)) = some sb) :
    readStringParam (Host.recording b) vm = Res.ret true none
      (VM.restoreAndPush
        { vm with
          memory := sb
          envFunc := { vm.envFunc with envFuncParamIdx := pidx + (length + 1) } }
        0) := by
  rw [readStringParam_after_switch (Host.recording b) vm addr b tag length pidx hp rfl hi hs,
    if_neg (by omega), hsl]
  rfl

theorem readStringParam_fe_low16 (x : UInt8) (d : List UInt8) :
    readStringParam (Host.recording ⟨0xfe :: 0 :: 0 :: 1 :: 0 :: x :: d, []⟩) (VM.sample [] [0])
      = Res.ret true none
          (VM.restoreAndPush
            { VM.sample [] [0] with
              memory := [0, 0, 1, 0, x]
              envFunc := { (VM.sample [] [0]).envFunc with envFuncParamIdx := 6 } }
            0) := by
  have hlen : 0 + 5 ≤ (GoSlice.mk (0xfe :: 0 :: 0 :: 1 :: 0 :: x :: d) []).len := by
    simp [GoSlice.len]
  have hs := readStringSwitch_fe (VM.sample [] [0]) ⟨0xfe :: 0 :: 0 :: 1 :: 0 :: x :: d, []⟩ 0 hlen
  have hsl : (GoSlice.mk (0xfe :: 0 :: 0 :: 1 :: 0 :: x :: d) []).slice (0 + 1) (5 + (0 + 1))
      = some [0, 0, 1, 0, x] := by
    simp [GoSlice.slice]
  exact readStringParam_recording ⟨0xfe :: 0 :: 0 :: 1 :: 0 :: x :: d, []⟩ (VM.sample [] [0]) 0
    0xfe 0 5 [0, 0, 1, 0, x] rfl rfl hs (by simp [GoSlice.len]) hsl

theorem encodeStringSpec_65536 (x : UInt8) :
    encodeStringSpec (List.replicate 65536 x)
      = 0xfe :: 0 :: 0 :: 1 :: 0 :: x :: List.replicate 65535 x := by
  unfold encodeStringSpec
  simp only [List.length_replicate]
  rfl

theorem readStringParam_fe_high16 (x y z : UInt8) (d : List UInt8) :
    readStringParam (Host.recording ⟨0xfe :: 2 :: 0 :: 1 :: 0 :: x :: y :: z :: d, []⟩)
        (VM.sample [] [0])
      = Res.ret true none
          (VM.restoreAndPush
            { VM.sample [] [0] with
              memory := [2, 0, 1, 0, x, y, z]
              envFunc := { (VM.sample [] [0]).envFunc with envFuncParamIdx := 8 } }
            0) := by
  have hlen : 0 + 5 ≤ (GoSlice.mk (0xfe :: 2 :: 0 :: 1 :: 0 :: x :: y :: z :: d) []).len := by
    simp [GoSlice.len]
  have hs := readStringSwitch_fe (VM.sample [] [0])
    ⟨0xfe :: 2 :: 0 :: 1 :: 0 :: x :: y :: z :: d, []⟩ 0 hlen
  have hsl : (GoSlice.mk (0xfe :: 2 :: 0 :: 1 :: 0 :: x :: y :: z :: d) []).slice
      (0 + 1) (5 + (2 + 1)) = some [2, 0, 1, 0, x, y, z] := by
    simp [GoSlice.slice]
  exact readStringParam_recording ⟨0xfe :: 2 :: 0 :: 1 :: 0 :: x :: y :: z :: d, []⟩
    (VM.sample [] [0]) 0 0xfe 2 5 [2, 0, 1, 0, x, y, z] rfl rfl hs (by simp [GoSlice.len]) hsl

theorem readStringParam_ff_high16 (x y z : UInt8) (d : List UInt8) :
    readStringParam
        (Host.recording ⟨0xff :: 2 :: 0 :: 1 :: 0 :: 0 :: 0 :: 0 :: 0 :: x :: y :: z :: d, []⟩)
        (VM.sample [] [0])
      = Res.ret true none
          (VM.restoreAndPush
            { VM.sample [] [0] with
              memory := [2, 0, 1, 0, 0, 0, 0, 0, x, y, z]
              envFunc := { (VM.sample [] [0]).envFunc with envFuncParamIdx := 12 } }
            0) := by
  have hlen : 0 + 9 ≤
      (GoSlice.mk (0xff :: 2 :: 0 :: 1 :: 0 :: 0 :: 0 :: 0 :: 0 :: x :: y :: z :: d) []).len := by
    simp [GoSlice.len]
  have hs := readStringSwitch_ff (VM.sample [] [0])
    ⟨0xff :: 2 :: 0 :: 1 :: 0 :: 0 :: 0 :: 0 :: 0 :: x :: y :: z :: d, []⟩ 0 hlen
  have hsl : (GoSlice.mk (0xff :: 2 :: 0 :: 1 :: 0 :: 0 :: 0 :: 0 :: 0 :: x :: y :: z :: d) []).slice
      (0 + 1) (9 + (2 + 1)) = some [2, 0, 1, 0, 0, 0, 0, 0, x, y, z] := by
    simp [GoSlice.slice]
  exact readStringParam_recording
    ⟨0xff :: 2 :: 0 :: 1 :: 0 :: 0 :: 0 :: 0 :: 0 :: x :: y :: z :: d, []⟩
    (VM.sample [] [0]) 0 0xff 2 9 [2, 0, 1, 0, 0, 0, 0, 0, x, y, z] rfl rfl hs
    (by simp [GoSlice.len]) hsl

set_option maxRecDepth 100000 in
/-- C7: the round trip holds for the lengths 0, 1 and 252 but not for 253 or
65536.  For 253 bytes of `0x61` the encoding is `FD FD 00` and the data; read
at cursor 0, `readStringParam` panics when the buffer has no spare capacity,
and with one spare byte `0x7a` it stores the two length bytes, the data and
the spare byte.  For 65536 bytes the encoding is `FE 00 00 01 00` and the
data; `readStringParam` decodes length 0 and stores the four length bytes and
one data byte. -/
theorem readStringParam_roundtrip_breaks :
    (∃ vm1 : VM,
      readStringParam (Host.recording ⟨encodeStringSpec [], []⟩) (VM.sample [] [0])
        = Res.ret true none vm1 ∧ vm1.memory = [])
    ∧ (∃ vm1 : VM,
      readStringParam (Host.recording ⟨encodeStringSpec [0x61], []⟩) (VM.sample [] [0])
        = Res.ret true none vm1 ∧ vm1.memory = [0x61])
    ∧ (∃ vm1 : VM,
      readStringParam (Host.recording ⟨encodeStringSpec (List.replicate 252 0x61), []⟩)
          (VM.sample [] [0])
        = Res.ret true none vm1 ∧ vm1.memory = List.replicate 252 0x61)
    ∧ encodeStringSpec (List.replicate 253 0x61)
        = 0xfd :: 0xfd :: 0x00 :: List.replicate 253 0x61
    ∧ readStringParam (Host.recording ⟨encodeStringSpec (List.replicate 253 0x61), []⟩)
        (VM.sample [] [0]) = Res.fault
    ∧ (∃ vm1 : VM,
      readStringParam (Host.recording ⟨encodeStringSpec (List.replicate 253 0x61), [0x7a]⟩)
          (VM.sample [] [0])
        = Res.ret true none vm1
        ∧ vm1.memory = 0xfd :: 0x00 :: (List.replicate 253 0x61 ++ [0x7a]))
    ∧ encodeStringSpec (List.replicate 65536 0x61)
        = 0xfe :: 0 :: 0 :: 1 :: 0 :: List.replicate 65536 0x61
    ∧ (∃ vm1 : VM,
      readStringParam (Host.recording ⟨encodeStringSpec (List.replicate 65536 0x61), []⟩)
          (VM.sample [] [0])
        = Res.ret true none vm1
        ∧ vm1.memory = [0, 0, 1, 0, 0x61] ∧ vm1.envFunc.envFuncParamIdx = 6) := by
  refine ⟨⟨_, rfl, rfl⟩, ⟨_, rfl, rfl⟩, ⟨_, rfl, rfl⟩, by decide, rfl, ⟨_, rfl, rfl⟩, ?_, ?_⟩
  · rw [encodeStringSpec_65536]
    rfl
  · rw [encodeStringSpec_65536]
    exact ⟨_, readStringParam_fe_low16 0x61 (List.replicate 65535 0x61),
      VM.restoreAndPush_memory _ _,
      by rw [VM.restoreAndPush_envFunc]⟩

/-- C8: the plain form is decoded as stated (`01 41 42` at cursor 0 stores
`41`), the escaped forms are not.  On `FD 01 00 41 42` (length 1, string `41`)
`readStringParam` stores `01 00 41 42`: the two length bytes, the string and
the byte after it.  On `FE 02 00 01 00` followed by 65538 bytes of `0x61` the
32-bit length is 65538, but the length decoded is that of the low 16 bits, 2,
and the bytes stored are `02 00 01 00 61 61 61`; likewise for `FF` with the
64-bit length 65538. -/
theorem readStringParam_escaped_forms_misdecoded :
    (∃ vm1 : VM,
      readStringParam (Host.recording ⟨[1, 0x41, 0x42], []⟩) (VM.sample [] [0])
        = Res.ret true none vm1
        ∧ vm1.memory = [0x41] ∧ vm1.envFunc.envFuncParamIdx = 2)
    ∧ (∃ vm1 : VM,
      readStringParam (Host.recording ⟨[0xfd, 1, 0, 0x41, 0x42], []⟩) (VM.sample [] [0])
        = Res.ret true none vm1
        ∧ vm1.memory = [1, 0, 0x41, 0x42] ∧ vm1.envFunc.envFuncParamIdx = 5)
    ∧ leValueSpec [2, 0, 1, 0] = 65538
    ∧ (∃ vm1 : VM,
      readStringParam
          (Host.recording ⟨0xfe :: 2 :: 0 :: 1 :: 0 :: List.replicate 65538 0x61, []⟩)
          (VM.sample [] [0])
        = Res.ret true none vm1
        ∧ vm1.memory = [2, 0, 1, 0, 0x61, 0x61, 0x61] ∧ vm1.envFunc.envFuncParamIdx = 8)
    ∧ leValueSpec [2, 0, 1, 0, 0, 0, 0, 0] = 65538
    ∧ (∃ vm1 : VM,
      readStringParam
          (Host.recording
            ⟨0xff :: 2 :: 0 :: 1 :: 0 :: 0 :: 0 :: 0 :: 0 :: List.replicate 65538 0x61, []⟩)
          (VM.sample [] [0])
        = Res.ret true none vm1
        ∧ vm1.memory = [2, 0, 1, 0, 0, 0, 0, 0, 0x61, 0x61, 0x61]
        ∧ vm1.envFunc.envFuncParamIdx = 12) := by
  have hrep : List.replicate 65538 (0x61 : UInt8)
      = 0x61 :: 0x61 :: 0x61 :: List.replicate 65535 0x61 := rfl
  refine ⟨⟨_, rfl, rfl, rfl⟩, ⟨_, rfl, rfl, rfl⟩, rfl, ?_, rfl, ?_⟩
  · rw [hrep]
    exact ⟨_, readStringParam_fe_high16 0x61 0x61 0x61 (List.replicate 65535 0x61),
      VM.restoreAndPush_memory _ _, by rw [VM.restoreAndPush_envFunc]⟩
  · rw [hrep]
    exact ⟨_, readStringParam_ff_high16 0x61 0x61 0x61 (List.replicate 65535 0x61),
      VM.restoreAndPush_memory _ _, by rw [VM.restoreAndPush_envFunc]⟩

/-- C10: `readStringParam` returns the error `read string failed` when the
declared data overruns the buffer by two bytes or more (`03 41`) or when an
escaped length is cut short (`FD 01`), but not in these cases: on `02 41` at
cursor 0 (the data would end exactly one byte past the end) the slice
expression panics, or, when the buffer has spare capacity, succeeds and stores
the byte `0x99` that lies beyond the buffer; with the cursor at the end of the
buffer (empty buffer, cursor 0) or past it the index expression
`paramBytes[pidx]` panics. -/
theorem readStringParam_truncated_input :
    readStringParam (Host.recording ⟨[3, 0x41], []⟩) (VM.sample [] [0])
        = Res.ret false (some "read string failed") (VM.sample [] [0])
    ∧ readStringParam (Host.recording ⟨[0xfd, 1], []⟩) (VM.sample [] [0])
        = Res.ret false (some "read string failed") (VM.sample [] [0])
    ∧ readStringParam (Host.recording ⟨[2, 0x41], []⟩) (VM.sample [] [0]) = Res.fault
    ∧ (∃ vm1 : VM,
      readStringParam (Host.recording ⟨[2, 0x41], [0x99]⟩) (VM.sample [] [0])
        = Res.ret true none vm1
        ∧ vm1.memory = [0x41, 0x99] ∧ vm1.envFunc.envFuncParamIdx = 3)
    ∧ readStringParam (Host.recording ⟨[], []⟩) (VM.sample [] [0]) = Res.fault
    ∧ readStringParam (Host.recording ⟨[1, 0x41], []⟩) ((VM.sample [] [0]).withFrame [0] 5)
        = Res.fault :=
  ⟨rfl, rfl, rfl, ⟨_, rfl, rfl, rfl⟩, rfl, rfl⟩

/-! ## Theorems: contract storage bridge -/

theorem readRange_in_range (mem : List UInt8) (pos len : Nat) (h : pos + len ≤ mem.length)
    (hm : mem.length < 9223372036854775808) :
    readRange mem (toInt pos) (toInt len) = some ((mem.drop pos).take len) := by
  unfold readRange
  rw [toInt_of_lt pos (by omega), toInt_of_lt len (by omega), addInt_of_lt pos len (by omega),
    if_neg (by omega), sliceOf_in_range mem pos len h]

theorem toUint64_zero : toUint64 0 = 0 := by decide

theorem toUint64_one : toUint64 1 = 1 := by decide

/-- C11: with the three key ranges inside memory, when the store returns a
value longer than `valueBufLen` (the eighth parameter word read as an `int`),
`getStrValue` returns success, the result word is 0 and the VM is as before
except for the restored context and the pushed result: no byte of memory
changes. -/
theorem getStrValue_value_too_long (h : Host) (vm : VM)
    (cp cl op ol kp kl vp vl : Nat) (value : List UInt8)
    (hp : vm.envFunc.envFuncParam = [cp, cl, op, ol, kp, kl, vp, vl])
    (hm : vm.memory.length < 9223372036854775808)
    (hc : cp + cl ≤ vm.memory.length) (ho : op + ol ≤ vm.memory.length)
    (hk : kp + kl ≤ vm.memory.length)
    (hv : h.GetStrValue vm.contract.ContractDB ((vm.memory.drop cp).take cl)
      ((vm.memory.drop op).take ol) ((vm.memory.drop kp).take kl) = Except.ok value)
    (hlen : toInt vl < (value.length : Int)) :
    getStrValue h vm = Res.ret true none (vm.restoreAndPush 0)
    ∧ (vm.restoreAndPush 0).memory = vm.memory
    ∧ (vm.restoreAndPush 0).stack = (if vm.envFunc.envFuncRtn then vm.stack ++ [0] else vm.stack)
    ∧ (vm.restoreAndPush 0).contract = vm.contract := by
  refine ⟨?_, VM.restoreAndPush_memory _ _, VM.restoreAndPush_stack _ _, ?_⟩
  · unfold getStrValue
    simp only [hp, VM.GetContract, readRange_in_range vm.memory cp cl hc hm,
      readRange_in_range vm.memory op ol ho hm, readRange_in_range vm.memory kp kl hk hm, hv,
      getStrValueDone]
    rw [if_neg (by omega), toUint64_zero]
  · simp only [VM.restoreAndPush, VM.pushUint64]
    split <;> rfl

/-- Witness for C11: the store holds a 5-byte value and the buffer has room
for 3. -/
theorem getStrValue_value_too_long_witness :
    getStrValue (Host.basic []) ((VM.sample [1, 2, 3, 4, 5, 6, 7, 8] [0, 1, 1, 1, 2, 1, 4, 3]).withStore 5)
      = Res.ret true none
          (((VM.sample [1, 2, 3, 4, 5, 6, 7, 8] [0, 1, 1, 1, 2, 1, 4, 3]).withStore 5).restoreAndPush 0)
    ∧ (((VM.sample [1, 2, 3, 4, 5, 6, 7, 8] [0, 1, 1, 1, 2, 1, 4, 3]).withStore 5).restoreAndPush
        0).memory = [1, 2, 3, 4, 5, 6, 7, 8] :=
  ⟨(getStrValue_value_too_long (Host.basic [])
      ((VM.sample [1, 2, 3, 4, 5, 6, 7, 8] [0, 1, 1, 1, 2, 1, 4, 3]).withStore 5)
      0 1 1 1 2 1 4 3 (List.replicate 5 0x76) rfl (by decide) (by decide) (by decide) (by decide)
      rfl (by decide)).1,
   (getStrValue_value_too_long (Host.basic [])
      ((VM.sample [1, 2, 3, 4, 5, 6, 7, 8] [0, 1, 1, 1, 2, 1, 4, 3]).withStore 5)
      0 1 1 1 2 1 4 3 (List.replicate 5 0x76) rfl (by decide) (by decide) (by decide) (by decide)
      rfl (by decide)).2.1⟩

theorem getStrValue_call (h : Host) (vm : VM) (cp cl op ol kp kl vp vl : Nat)
    (hp : vm.envFunc.envFuncParam = [cp, cl, op, ol, kp, kl, vp, vl])
    (hm : vm.memory.length < 9223372036854775808)
    (hc : cp + cl ≤ vm.memory.length) (ho : op + ol ≤ vm.memory.length)
    (hk : kp + kl ≤ vm.memory.length) :
    getStrValue h vm = getStrValueDone vm (toInt vp) (toInt vl)
      (h.GetStrValue vm.contract.ContractDB ((vm.memory.drop cp).take cl)
        ((vm.memory.drop op).take ol) ((vm.memory.drop kp).take kl)) := by
  unfold getStrValue
  simp only [hp, VM.GetContract, readRange_in_range vm.memory cp cl hc hm,
    readRange_in_range vm.memory op ol ho hm, readRange_in_range vm.memory kp kl hk hm]

theorem setStrValue_call (h : Host) (vm : VM) (op ol kp kl vp vl : Nat)
    (hp : vm.envFunc.envFuncParam = [op, ol, kp, kl, vp, vl])
    (hm : vm.memory.length < 9223372036854775808)
    (ho : op + ol ≤ vm.memory.length) (hk : kp + kl ≤ vm.memory.length)
    (hv : vp + vl ≤ vm.memory.length) :
    setStrValue h vm = storeCallDone vm
      (h.SetStrValue vm.contract.ContractDB vm.contract.Trx.Contract
        ((vm.memory.drop op).take ol) ((vm.memory.drop kp).take kl)
        ((vm.memory.drop vp).take vl)) := by
  unfold setStrValue
  simp only [hp, VM.GetContract, readRange_in_range vm.memory op ol ho hm,
    readRange_in_range vm.memory kp kl hk hm, readRange_in_range vm.memory vp vl hv hm]

theorem removeStrValue_call (h : Host) (vm : VM) (op ol kp kl : Nat)
    (hp : vm.envFunc.envFuncParam = [op, ol, kp, kl])
    (hm : vm.memory.length < 9223372036854775808)
    (ho : op + ol ≤ vm.memory.length) (hk : kp + kl ≤ vm.memory.length) :
    removeStrValue h vm = storeCallDone vm
      (h.RemoveStrValue vm.contract.ContractDB vm.contract.Trx.Contract
        ((vm.memory.drop op).take ol) ((vm.memory.drop kp).take kl)) := by
  unfold removeStrValue
  simp only [hp, VM.GetContract, readRange_in_range vm.memory op ol ho hm,
    readRange_in_range vm.memory kp kl hk hm]

theorem storeCallDone_eq (vm : VM) (err : Option String) (db : StoreState) :
    storeCallDone vm (err, db) = Res.ret true none
      (VM.restoreAndPush { vm with contract := { vm.contract with ContractDB := db } }
        (if err = none then 1 else 0)) := by
  unfold storeCallDone
  cases err with
  | none => simp only [if_true, toUint64_one]
  | some e => simp only [reduceCtorEq, if_false, toUint64_zero]

/-- C13: with the parameter count right and the ranges inside memory,
`setStrValue` and `removeStrValue` return `(true, nil)` whatever the store
returns: the error of the store only decides the result word, 1 without an
error and 0 with one, and the state of the store is the one the call left.
`getStrValue` returns `(true, nil)` with result 0 when the store reports an
error. -/
theorem store_error_is_result_flag (h : Host) (vm : VM)
    (hm : vm.memory.length < 9223372036854775808) :
    (∀ op ol kp kl vp vl : Nat, vm.envFunc.envFuncParam = [op, ol, kp, kl, vp, vl] →
      op + ol ≤ vm.memory.length → kp + kl ≤ vm.memory.length → vp + vl ≤ vm.memory.length →
      ∃ (err : Option String) (db : StoreState),
        h.SetStrValue vm.contract.ContractDB vm.contract.Trx.Contract
          ((vm.memory.drop op).take ol) ((vm.memory.drop kp).take kl)
          ((vm.memory.drop vp).take vl) = (err, db)
        ∧ setStrValue h vm = Res.ret true none
            (VM.restoreAndPush { vm with contract := { vm.contract with ContractDB := db } }
              (if err = none then 1 else 0)))
    ∧ (∀ op ol kp kl : Nat, vm.envFunc.envFuncParam = [op, ol, kp, kl] →
      op + ol ≤ vm.memory.length → kp + kl ≤ vm.memory.length →
      ∃ (err : Option String) (db : StoreState),
        h.RemoveStrValue vm.contract.ContractDB vm.contract.Trx.Contract
          ((vm.memory.drop op).take ol) ((vm.memory.drop kp).take kl) = (err, db)
        ∧ removeStrValue h vm = Res.ret true none
            (VM.restoreAndPush { vm with contract := { vm.contract with ContractDB := db } }
              (if err = none then 1 else 0)))
    ∧ (∀ (cp cl op ol kp kl vp vl : Nat) (e : String),
      vm.envFunc.envFuncParam = [cp, cl, op, ol, kp, kl, vp, vl] →
      cp + cl ≤ vm.memory.length → op + ol ≤ vm.memory.length → kp + kl ≤ vm.memory.length →
      h.GetStrValue vm.contract.ContractDB ((vm.memory.drop cp).take cl)
        ((vm.memory.drop op).take ol) ((vm.memory.drop kp).take kl) = Except.error e →
      getStrValue h vm = Res.ret true none (vm.restoreAndPush 0)) := by
  refine ⟨fun op ol kp kl vp vl hp ho hk hv => ?_, fun op ol kp kl hp ho hk => ?_,
    fun cp cl op ol kp kl vp vl e hp hc ho hk he => ?_⟩
  · refine ⟨_, _, rfl, ?_⟩
    rw [setStrValue_call h vm op ol kp kl vp vl hp hm ho hk hv]
    exact storeCallDone_eq vm _ _
  · refine ⟨_, _, rfl, ?_⟩
    rw [removeStrValue_call h vm op ol kp kl hp hm ho hk]
    exact storeCallDone_eq vm _ _
  · rw [getStrValue_call h vm cp cl op ol kp kl vp vl hp hm hc ho hk, he]
    simp only [getStrValueDone, toUint64_zero]

/-- Witness for C13: the store of `Host.basic` in state 0 fails every call;
`setStrValue` still returns `(true, nil)`, with result 0. -/
theorem store_error_is_result_flag_witness :
    ∃ (err : Option String) (db : StoreState),
      (Host.basic []).SetStrValue (VM.sample [1, 2, 3, 4] [0, 1, 1, 1, 2, 2]).contract.ContractDB
          (VM.sample [1, 2, 3, 4] [0, 1, 1, 1, 2, 2]).contract.Trx.Contract [1] [2] [3, 4]
        = (err, db)
      ∧ err = some "store error"
      ∧ setStrValue (Host.basic []) (VM.sample [1, 2, 3, 4] [0, 1, 1, 1, 2, 2])
          = Res.ret true none
              (VM.restoreAndPush
                { VM.sample [1, 2, 3, 4] [0, 1, 1, 1, 2, 2] with
                  contract :=
                    { (VM.sample [1, 2, 3, 4] [0, 1, 1, 1, 2, 2]).contract with
                      ContractDB := db } }
                (if err = none then 1 else 0)) := by
  obtain ⟨err, db, h1, h2⟩ :=
    (store_error_is_result_flag (Host.basic []) (VM.sample [1, 2, 3, 4] [0, 1, 1, 1, 2, 2])
      (by decide)).1 0 1 1 1 2 2 rfl (by decide) (by decide) (by decide)
  refine ⟨err, db, h1, ?_, h2⟩
  have h3 : (Host.basic []).SetStrValue
      (VM.sample [1, 2, 3, 4] [0, 1, 1, 1, 2, 2]).contract.ContractDB
      (VM.sample [1, 2, 3, 4] [0, 1, 1, 1, 2, 2]).contract.Trx.Contract [1] [2] [3, 4]
      = (some "store error", { id := 0 }) := rfl
  have h4 := h1.symm.trans h3
  exact (Prod.mk.inj h4).1

/-- On every state `setStrValue` either panics, or returns its arity error, or
calls the store once, with the field `Contract` of the active transaction as
the namespace; which of the three does not depend on the store. -/
theorem setStrValue_cases (vm : VM) :
    (∀ h : Host, setStrValue h vm = Res.fault)
    ∨ (∀ h : Host, setStrValue h vm
        = Res.ret false (some "parameter count error while call setStrValue") vm)
    ∨ ∃ object key value : List UInt8, ∀ h : Host,
        setStrValue h vm = storeCallDone vm
          (h.SetStrValue vm.contract.ContractDB vm.contract.Trx.Contract object key value) := by
  by_cases h6 : ∃ p0 p1 p2 p3 p4 p5, vm.envFunc.envFuncParam = [p0, p1, p2, p3, p4, p5]
  · obtain ⟨p0, p1, p2, p3, p4, p5, hp⟩ := h6
    cases ho : readRange vm.memory (toInt p0) (toInt p1) with
    | none =>
      refine Or.inl fun h => ?_
      unfold setStrValue
      simp only [hp, ho]
    | some object =>
      cases hk : readRange vm.memory (toInt p2) (toInt p3) with
      | none =>
        refine Or.inl fun h => ?_
        unfold setStrValue
        simp only [hp, ho, hk]
      | some key =>
        cases hv : readRange vm.memory (toInt p4) (toInt p5) with
        | none =>
          refine Or.inl fun h => ?_
          unfold setStrValue
          simp only [hp, ho, hk, hv]
        | some value =>
          refine Or.inr (Or.inr ⟨object, key, value, fun h => ?_⟩)
          unfold setStrValue
          simp only [hp, ho, hk, hv, VM.GetContract]
  · refine Or.inr (Or.inl fun h => ?_)
    unfold setStrValue
    split
    · rename_i p0 p1 p2 p3 p4 p5 hp
      exact absurd ⟨p0, p1, p2, p3, p4, p5, hp⟩ h6
    · rfl

/-- On every state `removeStrValue` either panics, or returns its arity error,
or calls the store once, with the field `Contract` of the active transaction
as the namespace; which of the three does not depend on the store. -/
theorem removeStrValue_cases (vm : VM) :
    (∀ h : Host, removeStrValue h vm = Res.fault)
    ∨ (∀ h : Host, removeStrValue h vm
        = Res.ret false (some "parameter count error while call removeStrValue") vm)
    ∨ ∃ object key : List UInt8, ∀ h : Host,
        removeStrValue h vm = storeCallDone vm
          (h.RemoveStrValue vm.contract.ContractDB vm.contract.Trx.Contract object key) := by
  by_cases h4 : ∃ p0 p1 p2 p3, vm.envFunc.envFuncParam = [p0, p1, p2, p3]
  · obtain ⟨p0, p1, p2, p3, hp⟩ := h4
    cases ho : readRange vm.memory (toInt p0) (toInt p1) with
    | none =>
      refine Or.inl fun h => ?_
      unfold removeStrValue
      simp only [hp, ho]
    | some object =>
      cases hk : readRange vm.memory (toInt p2) (toInt p3) with
      | none =>
        refine Or.inl fun h => ?_
        unfold removeStrValue
        simp only [hp, ho, hk]
      | some key =>
        refine Or.inr (Or.inr ⟨object, key, fun h => ?_⟩)
        unfold removeStrValue
        simp only [hp, ho, hk, VM.GetContract]
  · refine Or.inr (Or.inl fun h => ?_)
    unfold removeStrValue
    split
    · rename_i p0 p1 p2 p3 hp
      exact absurd ⟨p0, p1, p2, p3, hp⟩ h4
    · rfl

/-- Two stores that answer alike in the namespace of the active transaction
cannot be told apart by `setStrValue`, on any state. -/
theorem setStrValue_other_namespaces_unused (vm : VM) (h h2 : Host)
    (heq : ∀ db object key value,
      h.SetStrValue db vm.contract.Trx.Contract object key value
        = h2.SetStrValue db vm.contract.Trx.Contract object key value) :
    setStrValue h vm = setStrValue h2 vm := by
  rcases setStrValue_cases vm with hc | hc | ⟨o, k, v, hc⟩
  · rw [hc h, hc h2]
  · rw [hc h, hc h2]
  · rw [hc h, hc h2, heq]

/-- Two stores that answer alike in the namespace of the active transaction
cannot be told apart by `removeStrValue`, on any state. -/
theorem removeStrValue_other_namespaces_unused (vm : VM) (h h2 : Host)
    (heq : ∀ db object key,
      h.RemoveStrValue db vm.contract.Trx.Contract object key
        = h2.RemoveStrValue db vm.contract.Trx.Contract object key) :
    removeStrValue h vm = removeStrValue h2 vm := by
  rcases removeStrValue_cases vm with hc | hc | ⟨o, k, hc⟩
  · rw [hc h, hc h2]
  · rw [hc h, hc h2]
  · rw [hc h, hc h2, heq]

/-- C19: the namespace that `setStrValue` and `removeStrValue` hand to the
store is the field `Contract` of the active transaction, on every state.  For
two states with the same active transaction and any memories and parameter
words, each handler either makes no call of the store (it panics or returns
its arity error, whatever the store is) or calls it once with that one
namespace, so two stores that answer alike in that namespace give the same
outcome.  When the parameter count is right and the ranges are inside memory
the call is made, and object, key and value are the bytes read from memory.
`getStrValue` hands to the store the bytes at `contractPos` as the namespace. -/
theorem store_namespace_from_transaction (vm1 vm2 : VM)
    (ht : vm1.contract.Trx = vm2.contract.Trx) :
    ((∀ h : Host, setStrValue h vm1 = Res.fault)
      ∨ (∀ h : Host, setStrValue h vm1
          = Res.ret false (some "parameter count error while call setStrValue") vm1)
      ∨ ∃ object key value : List UInt8, ∀ h : Host,
          setStrValue h vm1 = storeCallDone vm1
            (h.SetStrValue vm1.contract.ContractDB vm1.contract.Trx.Contract object key value))
    ∧ ((∀ h : Host, setStrValue h vm2 = Res.fault)
      ∨ (∀ h : Host, setStrValue h vm2
          = Res.ret false (some "parameter count error while call setStrValue") vm2)
      ∨ ∃ object key value : List UInt8, ∀ h : Host,
          setStrValue h vm2 = storeCallDone vm2
            (h.SetStrValue vm2.contract.ContractDB vm1.contract.Trx.Contract object key value))
    ∧ ((∀ h : Host, removeStrValue h vm1 = Res.fault)
      ∨ (∀ h : Host, removeStrValue h vm1
          = Res.ret false (some "parameter count error while call removeStrValue") vm1)
      ∨ ∃ object key : List UInt8, ∀ h : Host,
          removeStrValue h vm1 = storeCallDone vm1
            (h.RemoveStrValue vm1.contract.ContractDB vm1.contract.Trx.Contract object key))
    ∧ ((∀ h : Host, removeStrValue h vm2 = Res.fault)
      ∨ (∀ h : Host, removeStrValue h vm2
          = Res.ret false (some "parameter count error while call removeStrValue") vm2)
      ∨ ∃ object key : List UInt8, ∀ h : Host,
          removeStrValue h vm2 = storeCallDone vm2
            (h.RemoveStrValue vm2.contract.ContractDB vm1.contract.Trx.Contract object key))
    ∧ (∀ h h2 : Host,
        (∀ db object key value,
          h.SetStrValue db vm1.contract.Trx.Contract object key value
            = h2.SetStrValue db vm1.contract.Trx.Contract object key value) →
        setStrValue h vm1 = setStrValue h2 vm1 ∧ setStrValue h vm2 = setStrValue h2 vm2)
    ∧ (∀ h h2 : Host,
        (∀ db object key,
          h.RemoveStrValue db vm1.contract.Trx.Contract object key
            = h2.RemoveStrValue db vm1.contract.Trx.Contract object key) →
        removeStrValue h vm1 = removeStrValue h2 vm1
          ∧ removeStrValue h vm2 = removeStrValue h2 vm2)
    ∧ (∀ o1 l1 k1 m1 v1 n1 o2 l2 k2 m2 v2 n2 : Nat,
      vm1.memory.length < 9223372036854775808 → vm2.memory.length < 9223372036854775808 →
      vm1.envFunc.envFuncParam = [o1, l1, k1, m1, v1, n1] →
      vm2.envFunc.envFuncParam = [o2, l2, k2, m2, v2, n2] →
      o1 + l1 ≤ vm1.memory.length → k1 + m1 ≤ vm1.memory.length →
      v1 + n1 ≤ vm1.memory.length →
      o2 + l2 ≤ vm2.memory.length → k2 + m2 ≤ vm2.memory.length →
      v2 + n2 ≤ vm2.memory.length →
      ∀ h : Host,
        setStrValue h vm1 = storeCallDone vm1
          (h.SetStrValue vm1.contract.ContractDB vm1.contract.Trx.Contract
            ((vm1.memory.drop o1).take l1) ((vm1.memory.drop k1).take m1)
            ((vm1.memory.drop v1).take n1))
        ∧ setStrValue h vm2 = storeCallDone vm2
          (h.SetStrValue vm2.contract.ContractDB vm1.contract.Trx.Contract
            ((vm2.memory.drop o2).take l2) ((vm2.memory.drop k2).take m2)
            ((vm2.memory.drop v2).take n2)))
    ∧ (∀ o1 l1 k1 m1 o2 l2 k2 m2 : Nat,
      vm1.memory.length < 9223372036854775808 → vm2.memory.length < 9223372036854775808 →
      vm1.envFunc.envFuncParam = [o1, l1, k1, m1] →
      vm2.envFunc.envFuncParam = [o2, l2, k2, m2] →
      o1 + l1 ≤ vm1.memory.length → k1 + m1 ≤ vm1.memory.length →
      o2 + l2 ≤ vm2.memory.length → k2 + m2 ≤ vm2.memory.length →
      ∀ h : Host,
        removeStrValue h vm1 = storeCallDone vm1
          (h.RemoveStrValue vm1.contract.ContractDB vm1.contract.Trx.Contract
            ((vm1.memory.drop o1).take l1) ((vm1.memory.drop k1).take m1))
        ∧ removeStrValue h vm2 = storeCallDone vm2
          (h.RemoveStrValue vm2.contract.ContractDB vm1.contract.Trx.Contract
            ((vm2.memory.drop o2).take l2) ((vm2.memory.drop k2).take m2)))
    ∧ (∀ cp cl op ol kp kl vp vl : Nat,
      vm1.memory.length < 9223372036854775808 →
      vm1.envFunc.envFuncParam = [cp, cl, op, ol, kp, kl, vp, vl] →
      cp + cl ≤ vm1.memory.length → op + ol ≤ vm1.memory.length →
      kp + kl ≤ vm1.memory.length →
      ∀ h : Host,
        getStrValue h vm1 = getStrValueDone vm1 (toInt vp) (toInt vl)
          (h.GetStrValue vm1.contract.ContractDB ((vm1.memory.drop cp).take cl)
            ((vm1.memory.drop op).take ol) ((vm1.memory.drop kp).take kl))) := by
  have hns : vm1.contract.Trx.Contract = vm2.contract.Trx.Contract := by rw [ht]
  refine ⟨setStrValue_cases vm1, ?_, removeStrValue_cases vm1, ?_,
    fun h h2 heq => ⟨setStrValue_other_namespaces_unused vm1 h h2 heq,
      setStrValue_other_namespaces_unused vm2 h h2 (by rw [← hns]; exact heq)⟩,
    fun h h2 heq => ⟨removeStrValue_other_namespaces_unused vm1 h h2 heq,
      removeStrValue_other_namespaces_unused vm2 h h2 (by rw [← hns]; exact heq)⟩,
    fun o1 l1 k1 m1 v1 n1 o2 l2 k2 m2 v2 n2 hm1 hm2 hp1 hp2 ho1 hk1 hv1 ho2 hk2 hv2 h =>
      ⟨?_, ?_⟩,
    fun o1 l1 k1 m1 o2 l2 k2 m2 hm1 hm2 hp1 hp2 ho1 hk1 ho2 hk2 h => ⟨?_, ?_⟩,
    fun cp cl op ol kp kl vp vl hm1 hp hc ho hk h => ?_⟩
  · rw [hns]
    exact setStrValue_cases vm2
  · rw [hns]
    exact removeStrValue_cases vm2
  · exact setStrValue_call h vm1 o1 l1 k1 m1 v1 n1 hp1 hm1 ho1 hk1 hv1
  · rw [hns]
    exact setStrValue_call h vm2 o2 l2 k2 m2 v2 n2 hp2 hm2 ho2 hk2 hv2
  · exact removeStrValue_call h vm1 o1 l1 k1 m1 hp1 hm1 ho1 hk1
  · rw [hns]
    exact removeStrValue_call h vm2 o2 l2 k2 m2 hp2 hm2 ho2 hk2
  · exact getStrValue_call h vm1 cp cl op ol kp kl vp vl hp hm1 hc ho hk

/-- Witness for C19: two states with the same transaction (contract `63`),
different memories and different parameter words, and stores that accept a
write in one namespace only.  The store that owns `63` accepts the write in
both states and the store that owns `64` refuses it in both: the namespace
handed over is `63`.  On a third parameter list, whose object range is outside
the memory of the first state, the handler panics, whatever the store is. -/
theorem store_namespace_from_transaction_witness :
    (setStrValue (Host.guarded [0x63]) (VM.sample [1, 2, 3, 4] [0, 1, 1, 1, 2, 2])
        = storeCallDone (VM.sample [1, 2, 3, 4] [0, 1, 1, 1, 2, 2]) (none, { id := 1 })
      ∧ setStrValue (Host.guarded [0x63]) (VM.sample [9, 8, 7] [2, 1, 1, 1, 0, 1])
        = storeCallDone (VM.sample [9, 8, 7] [2, 1, 1, 1, 0, 1]) (none, { id := 1 }))
    ∧ (setStrValue (Host.guarded [0x64]) (VM.sample [1, 2, 3, 4] [0, 1, 1, 1, 2, 2])
        = storeCallDone (VM.sample [1, 2, 3, 4] [0, 1, 1, 1, 2, 2])
            (some "foreign namespace", { id := 0 })
      ∧ setStrValue (Host.guarded [0x64]) (VM.sample [9, 8, 7] [2, 1, 1, 1, 0, 1])
        = storeCallDone (VM.sample [9, 8, 7] [2, 1, 1, 1, 0, 1])
            (some "foreign namespace", { id := 0 }))
    ∧ (setStrValue (Host.guarded [0x64]) (VM.sample [1, 2, 3, 4] [0, 9, 1, 1, 2, 2])
        = setStrValue (Host.basic []) (VM.sample [1, 2, 3, 4] [0, 9, 1, 1, 2, 2])
      ∧ setStrValue (Host.basic []) (VM.sample [1, 2, 3, 4] [0, 9, 1, 1, 2, 2]) = Res.fault) :=
  ⟨(store_namespace_from_transaction (VM.sample [1, 2, 3, 4] [0, 1, 1, 1, 2, 2])
      (VM.sample [9, 8, 7] [2, 1, 1, 1, 0, 1]) rfl).2.2.2.2.2.2.1
      0 1 1 1 2 2 2 1 1 1 0 1 (by decide) (by decide) rfl rfl (by decide) (by decide)
      (by decide) (by decide) (by decide) (by decide) (Host.guarded [0x63]),
    (store_namespace_from_transaction (VM.sample [1, 2, 3, 4] [0, 1, 1, 1, 2, 2])
      (VM.sample [9, 8, 7] [2, 1, 1, 1, 0, 1]) rfl).2.2.2.2.2.2.1
      0 1 1 1 2 2 2 1 1 1 0 1 (by decide) (by decide) rfl rfl (by decide) (by decide)
      (by decide) (by decide) (by decide) (by decide) (Host.guarded [0x64]),
    by
      rcases (store_namespace_from_transaction (VM.sample [1, 2, 3, 4] [0, 9, 1, 1, 2, 2])
        (VM.sample [9, 8, 7] [2, 1, 1, 1, 0, 1]) rfl).1 with hc | hc | ⟨o, k, v, hc⟩
      · exact ⟨by rw [hc, hc], hc _⟩
      · have hf : setStrValue (Host.basic []) (VM.sample [1, 2, 3, 4] [0, 9, 1, 1, 2, 2])
            = Res.fault := rfl
        rw [hc] at hf
        exact Res.noConfusion hf
      · have hf : setStrValue (Host.basic []) (VM.sample [1, 2, 3, 4] [0, 9, 1, 1, 2, 2])
            = Res.fault := rfl
        rw [hc] at hf
        unfold storeCallDone at hf
        exact Res.noConfusion hf⟩

/-! ## Theorems: inter-contract call dispatch -/

/-- The state that a successful `callTrx` leaves: the call counter is one
higher, one context and one transaction are appended, and a placeholder word
is pushed when a result is expected. -/
theorem callTrx_success (h : Host) (vm vm1 : VM) (e : Option String)
    (hs : callTrx h vm = Res.ret true e vm1) :
    ∃ contrx method param : List UInt8,
      vm1.subTrxLst = vm.subTrxLst ++ [subTransaction vm.contract.Trx contrx method param]
      ∧ vm1.subCtnLst = vm.subCtnLst ++
          [{ RoleIntf := vm.contract.RoleIntf
             ContractDB := vm.contract.ContractDB
             Trx := subTransaction vm.contract.Trx contrx method param }]
      ∧ vm1.contract = vm.contract ∧ vm1.memory = vm.memory
      ∧ vm1.callWid = vm.callWid + 1 ∧ e = none := by
  unfold callTrx at hs
  split at hs
  · dsimp only at hs
    split at hs
    · exact absurd hs (by simp)
    · split at hs
      · exact absurd hs (by simp)
      · split at hs
        · exact absurd hs (by simp)
        · split at hs
          · exact absurd hs (by simp)
          · split at hs
            · exact absurd hs (by simp)
            · rename_i cB _ _ _ _ _ mB _ _ pB _
              obtain ⟨-, he, hvm⟩ := Res.ret.inj hs
              subst hvm
              refine ⟨h.BytesToString cB, h.BytesToString mB, pB, ?_⟩
              simp only [VM.GetContract, VM.pushUint32]
              split <;> exact ⟨rfl, rfl, rfl, rfl, rfl, he.symm⟩
  · exact absurd (Res.ret.inj hs).1 (by decide)

/-- C12: a successful `callTrx` appends exactly one transaction and one
context, after the entries already there; the transaction has the contract of
the current transaction as its sender and the context carries that
transaction.  A second successful `callTrx` on a state with the lists and the
contract context left by the first one leaves two new entries, in call order,
each with the current contract as sender. -/
theorem callTrx_appends_in_order (h : Host) (vm vm1 : VM) (e : Option String)
    (hs : callTrx h vm = Res.ret true e vm1) :
    (∃ (trx : Transaction) (ctx : Context),
      vm1.subTrxLst = vm.subTrxLst ++ [trx] ∧ vm1.subCtnLst = vm.subCtnLst ++ [ctx]
      ∧ trx.Sender = vm.contract.Trx.Contract ∧ ctx.Trx = trx)
    ∧ (∀ (vm2 vm3 : VM) (e2 : Option String),
        vm2.subTrxLst = vm1.subTrxLst → vm2.subCtnLst = vm1.subCtnLst →
        vm2.contract = vm1.contract →
        callTrx h vm2 = Res.ret true e2 vm3 →
        ∃ (t1 t2 : Transaction) (c1 c2 : Context),
          vm1.subTrxLst = vm.subTrxLst ++ [t1] ∧ vm1.subCtnLst = vm.subCtnLst ++ [c1]
          ∧ vm3.subTrxLst = vm.subTrxLst ++ [t1, t2] ∧ vm3.subCtnLst = vm.subCtnLst ++ [c1, c2]
          ∧ t1.Sender = vm.contract.Trx.Contract ∧ t2.Sender = vm.contract.Trx.Contract
          ∧ c1.Trx = t1 ∧ c2.Trx = t2) := by
  obtain ⟨cx, mt, pr, ht, hc, hk, -, -, -⟩ := callTrx_success h vm vm1 e hs
  refine ⟨⟨_, _, ht, hc, rfl, rfl⟩, fun vm2 vm3 e2 h2t h2c h2k hs2 => ?_⟩
  obtain ⟨cx2, mt2, pr2, ht2, hc2, -, -, -, -⟩ := callTrx_success h vm2 vm3 e2 hs2
  refine ⟨_, subTransaction vm2.contract.Trx cx2 mt2 pr2, _,
    { RoleIntf := vm2.contract.RoleIntf
      ContractDB := vm2.contract.ContractDB
      Trx := subTransaction vm2.contract.Trx cx2 mt2 pr2 }, ht, hc, ?_, ?_, rfl, ?_, rfl, rfl⟩
  · rw [ht2, h2t, ht, List.append_assoc]
    rfl
  · rw [hc2, h2c, hc, List.append_assoc]
    rfl
  · rw [h2k, hk]
    rfl

/-- Witness for C12: `callTrx` succeeds on `VM.callSample` and appends a
transaction to `bank`, method `transfer`, sent by the current contract. -/
theorem callTrx_appends_in_order_witness :
    ∃ vm1 : VM, callTrx (Host.basic []) VM.callSample = Res.ret true none vm1
      ∧ vm1.subTrxLst = [subTransaction VM.callSample.contract.Trx (ascii "bank")
          (ascii "transfer") [0xc0, 0x01]]
      ∧ ∃ (trx : Transaction) (ctx : Context),
          vm1.subTrxLst = VM.callSample.subTrxLst ++ [trx]
          ∧ vm1.subCtnLst = VM.callSample.subCtnLst ++ [ctx]
          ∧ trx.Sender = VM.callSample.contract.Trx.Contract ∧ ctx.Trx = trx := by
  have hcall : ∃ vm1 : VM, callTrx (Host.basic []) VM.callSample = Res.ret true none vm1
      ∧ vm1.subTrxLst = [subTransaction VM.callSample.contract.Trx (ascii "bank")
          (ascii "transfer") [0xc0, 0x01]] := ⟨_, rfl, by decide⟩
  obtain ⟨vm1, h1, h2⟩ := hcall
  exact ⟨vm1, h1, h2, (callTrx_appends_in_order (Host.basic []) VM.callSample vm1 none h1).1⟩

/-! ## Theorems: calling convention -/

/-- The fourteen registered handlers that test `len(params)` return an error
and leave the VM as it was when the parameter count differs from the count
they test. -/
theorem arity_error_of_checked (h : Host) (vm : VM) (fn : HostFn)
    (hreg : fn ∈ builtinTable.map Prod.snd) (h1 : fn ≠ HostFn.printi) (h2 : fn ≠ HostFn.prints)
    (hlen : vm.envFunc.envFuncParam.length ≠ declaredArity fn) :
    ∃ msg : String, callHandler h fn vm = Res.ret false (some msg) vm := by
  cases fn
  case printi => exact absurd rfl h1
  case prints => exact absurd rfl h2
  case calloc => exact absurd hreg (by decide)
  case readMessage => exact absurd hreg (by decide)
  case readInt32Param => exact absurd hreg (by decide)
  case readInt64Param => exact absurd hreg (by decide)
  case readStringParam => exact absurd hreg (by decide)
  case rawUnmashal => exact absurd hreg (by decide)
  all_goals
    simp only [declaredArity] at hlen
    simp only [callHandler]
  case malloc =>
    unfold malloc
    split
    · rename_i heq; rw [heq] at hlen; exact absurd rfl hlen
    · exact ⟨_, rfl⟩
  case arrayLen =>
    unfold arrayLen
    split
    · rename_i heq; rw [heq] at hlen; exact absurd rfl hlen
    · exact ⟨_, rfl⟩
  case memcpy =>
    unfold memcpy
    split
    · rename_i heq; rw [heq] at hlen; exact absurd rfl hlen
    · exact ⟨_, rfl⟩
  case memset =>
    unfold memset
    split
    · rename_i heq; rw [heq] at hlen; exact absurd rfl hlen
    · exact ⟨_, rfl⟩
  case jsonUnmashal =>
    unfold jsonUnmashal
    split
    · rename_i heq; rw [heq] at hlen; exact absurd rfl hlen
    · exact ⟨_, rfl⟩
  case jsonMashal =>
    unfold jsonMashal
    split
    · rename_i heq; rw [heq] at hlen; exact absurd rfl hlen
    · exact ⟨_, rfl⟩
  case stringcmp =>
    unfold stringcmp
    split
    · rename_i heq; rw [heq] at hlen; exact absurd rfl hlen
    · exact ⟨_, rfl⟩
  case getStrValue =>
    unfold getStrValue
    dsimp only
    split
    · rename_i heq; rw [heq] at hlen; exact absurd rfl hlen
    · exact ⟨_, rfl⟩
  case setStrValue =>
    unfold setStrValue
    dsimp only
    split
    · rename_i heq; rw [heq] at hlen; exact absurd rfl hlen
    · exact ⟨_, rfl⟩
  case removeStrValue =>
    unfold removeStrValue
    dsimp only
    split
    · rename_i heq; rw [heq] at hlen; exact absurd rfl hlen
    · exact ⟨_, rfl⟩
  case getParam =>
    unfold getParam
    dsimp only
    split
    · rename_i heq; rw [heq] at hlen; exact absurd rfl hlen
    · exact ⟨_, rfl⟩
  case callTrx =>
    unfold callTrx
    split
    · rename_i heq; rw [heq] at hlen; exact absurd rfl hlen
    · exact ⟨_, rfl⟩
  case recvTrx =>
    unfold recvTrx
    split
    · rename_i heq; rw [heq] at hlen; exact absurd rfl hlen
    · exact ⟨_, rfl⟩
  case parseParam =>
    unfold parseParam
    split
    · rename_i heq; rw [heq] at hlen; exact absurd rfl hlen
    · exact ⟨_, rfl⟩
/-- The ten registered handlers that end with the common tail: on success the
state returned is some state with the saved context restored and the result
word pushed if one is expected. -/
theorem epilogue_of_success (h : Host) (vm vm1 : VM) (e : Option String) (fn : HostFn)
    (hfn : fn ∈ [HostFn.stringcmp, HostFn.malloc, HostFn.arrayLen, HostFn.memcpy, HostFn.memset,
      HostFn.jsonMashal, HostFn.getStrValue, HostFn.setStrValue, HostFn.removeStrValue,
      HostFn.getParam])
    (hs : callHandler h fn vm = Res.ret true e vm1) :
    ∃ (vm0 : VM) (w : Nat), vm1 = vm0.restoreAndPush w := by
  cases fn
  case stringcmp =>
    simp only [callHandler] at hs
    unfold stringcmp at hs
    try dsimp only at hs
    split at hs
    · try dsimp only at hs
      repeat' first | split at hs | dsimp only at hs
      all_goals first
        | exact Res.noConfusion hs
        | exact absurd (Res.ret.inj hs).1 (by decide)
        | exact ⟨_, _, (Res.ret.inj hs).2.2.symm⟩
    · exact absurd (Res.ret.inj hs).1 (by decide)
  case malloc =>
    simp only [callHandler] at hs
    unfold malloc at hs
    try dsimp only at hs
    split at hs
    · try dsimp only at hs
      repeat' first | split at hs | dsimp only at hs
      all_goals first
        | exact Res.noConfusion hs
        | exact absurd (Res.ret.inj hs).1 (by decide)
        | exact ⟨_, _, (Res.ret.inj hs).2.2.symm⟩
    · exact absurd (Res.ret.inj hs).1 (by decide)
  case arrayLen =>
    simp only [callHandler] at hs
    unfold arrayLen at hs
    split at hs
    · exact ⟨_, _, (Res.ret.inj hs).2.2.symm⟩
    · exact absurd (Res.ret.inj hs).1 (by decide)
  case memcpy =>
    simp only [callHandler] at hs
    unfold memcpy at hs
    try dsimp only at hs
    split at hs
    · try dsimp only at hs
      repeat' first | split at hs | dsimp only at hs
      all_goals first
        | exact Res.noConfusion hs
        | exact absurd (Res.ret.inj hs).1 (by decide)
        | exact ⟨_, _, (Res.ret.inj hs).2.2.symm⟩
    · exact absurd (Res.ret.inj hs).1 (by decide)
  case memset =>
    simp only [callHandler] at hs
    unfold memset at hs
    try dsimp only at hs
    split at hs
    · try dsimp only at hs
      repeat' first | split at hs | dsimp only at hs
      all_goals first
        | exact Res.noConfusion hs
        | exact absurd (Res.ret.inj hs).1 (by decide)
        | exact ⟨_, _, (Res.ret.inj hs).2.2.symm⟩
    · exact absurd (Res.ret.inj hs).1 (by decide)
  case jsonMashal =>
    simp only [callHandler] at hs
    unfold jsonMashal at hs
    split at hs
    · split at hs
      · exact absurd (Res.ret.inj hs).1 (by decide)
      · dsimp only at hs
        split at hs
        · rename_i r hr
          unfold jsonMashalVal at hr
          subst hs
          repeat' split at hr
          all_goals first
            | exact Except.noConfusion hr
            | exact Res.noConfusion (Except.error.inj hr)
            | exact absurd (Res.ret.inj (Except.error.inj hr)).1 (by decide)
        · repeat' split at hs
          all_goals first
            | exact Res.noConfusion hs
            | exact absurd (Res.ret.inj hs).1 (by decide)
            | exact ⟨_, _, (Res.ret.inj hs).2.2.symm⟩
    · exact absurd (Res.ret.inj hs).1 (by decide)
  case getStrValue =>
    simp only [callHandler] at hs
    unfold getStrValue at hs
    try dsimp only at hs
    split at hs
    · try dsimp only at hs
      unfold getStrValueDone at hs
      repeat' first | split at hs | dsimp only at hs
      all_goals first
        | exact Res.noConfusion hs
        | exact absurd (Res.ret.inj hs).1 (by decide)
        | exact ⟨_, _, (Res.ret.inj hs).2.2.symm⟩
    · exact absurd (Res.ret.inj hs).1 (by decide)
  case setStrValue =>
    simp only [callHandler] at hs
    unfold setStrValue at hs
    try dsimp only at hs
    split at hs
    · try dsimp only at hs
      unfold storeCallDone at hs
      repeat' first | split at hs | dsimp only at hs
      all_goals first
        | exact Res.noConfusion hs
        | exact absurd (Res.ret.inj hs).1 (by decide)
        | exact ⟨_, _, (Res.ret.inj hs).2.2.symm⟩
    · exact absurd (Res.ret.inj hs).1 (by decide)
  case removeStrValue =>
    simp only [callHandler] at hs
    unfold removeStrValue at hs
    try dsimp only at hs
    split at hs
    · try dsimp only at hs
      unfold storeCallDone at hs
      repeat' first | split at hs | dsimp only at hs
      all_goals first
        | exact Res.noConfusion hs
        | exact absurd (Res.ret.inj hs).1 (by decide)
        | exact ⟨_, _, (Res.ret.inj hs).2.2.symm⟩
    · exact absurd (Res.ret.inj hs).1 (by decide)
  case getParam =>
    simp only [callHandler] at hs
    unfold getParam at hs
    try dsimp only at hs
    split at hs
    · try dsimp only at hs
      repeat' first | split at hs | dsimp only at hs
      all_goals first
        | exact Res.noConfusion hs
        | exact absurd (Res.ret.inj hs).1 (by decide)
        | exact ⟨_, _, (Res.ret.inj hs).2.2.symm⟩
    · exact absurd (Res.ret.inj hs).1 (by decide)
  all_goals exact absurd hfn (by decide)
/-- C14: the handlers that test `len(params)` return their arity error with
the VM untouched (here `memcpy` and `getStrValue` on an empty list, through
the registry), but `printi` and `prints` test nothing: on an empty list both
panic on `envFuncParam[0]`, `prints` panics on one word as well, and with more
words than they read (two for `printi`, three for `prints`) they return
`(true, nil)` instead of an error. -/
theorem printi_prints_arity_unchecked :
    NewEnvFunc.Invoke (callHandler (Host.basic [])) "memcpy" (VM.sample [1, 2, 3] [])
      = Res.ret false (some "parameter count error while call memcpy") (VM.sample [1, 2, 3] [])
    ∧ NewEnvFunc.Invoke (callHandler (Host.basic [])) "getStrValue" (VM.sample [1, 2, 3] [])
      = Res.ret false (some "parameter count error while call getStrValue")
          (VM.sample [1, 2, 3] [])
    ∧ NewEnvFunc.Invoke (callHandler (Host.basic [])) "printi" (VM.sample [1, 2, 3] [])
      = Res.fault
    ∧ NewEnvFunc.Invoke (callHandler (Host.basic [])) "prints" (VM.sample [1, 2, 3] [])
      = Res.fault
    ∧ printi (VM.sample [1, 2, 3] []) = Res.fault
    ∧ printi (VM.sample [1, 2, 3] [5, 6]) = Res.ret true none (VM.sample [1, 2, 3] [5, 6])
    ∧ prints (VM.sample [1, 2, 3] []) = Res.fault
    ∧ prints (VM.sample [1, 2, 3] [0]) = Res.fault
    ∧ prints (VM.sample [1, 2, 3] [0, 2, 9]) = Res.ret true none (VM.sample [1, 2, 3] [0, 2, 9]) := by
  refine ⟨rfl, rfl, rfl, rfl, rfl, rfl, rfl, rfl, rfl⟩

/-- C15: five registered handlers return success without assigning `vm.ctx`.
On states whose current context is 3 and whose saved context is 7, `printi`,
`prints`, `callTrx`, `recvTrx` and `parseParam` succeed and leave the context
at 3, whereas `memcpy` leaves it at 7. -/
theorem context_not_restored_by_five_handlers :
    (∃ vm1 : VM, printi (VM.sample [1, 2, 3] [5]) = Res.ret true none vm1
      ∧ vm1.ctx = { id := 3 } ∧ vm1.envFunc.envFuncCtx = { id := 7 })
    ∧ (∃ vm1 : VM, prints (VM.sample [1, 2, 3] [0, 2]) = Res.ret true none vm1
      ∧ vm1.ctx = { id := 3 } ∧ vm1.envFunc.envFuncCtx = { id := 7 })
    ∧ (∃ vm1 : VM, callTrx (Host.basic []) VM.callSample = Res.ret true none vm1
      ∧ vm1.ctx = { id := 3 } ∧ vm1.envFunc.envFuncCtx = { id := 7 })
    ∧ (∃ vm1 : VM, recvTrx (Host.basic []) (VM.sample [1, 2, 3] [0, 2]) = Res.ret true none vm1
      ∧ vm1.ctx = { id := 3 } ∧ vm1.envFunc.envFuncCtx = { id := 7 })
    ∧ (∃ vm1 : VM, parseParam (VM.sample [1, 2, 3] [0, 2]) = Res.ret true none vm1
      ∧ vm1.ctx = { id := 3 } ∧ vm1.envFunc.envFuncCtx = { id := 7 })
    ∧ (∃ vm1 : VM, memcpy (VM.sample [1, 2, 3] [2, 0, 1]) = Res.ret true none vm1
      ∧ vm1.ctx = { id := 7 } ∧ vm1.envFunc.envFuncCtx = { id := 7 }) := by
  refine ⟨⟨_, rfl, rfl, rfl⟩, ⟨_, rfl, rfl, rfl⟩, ⟨_, rfl, rfl, rfl⟩, ⟨_, rfl, rfl, rfl⟩,
    ⟨_, rfl, rfl, rfl⟩, ⟨_, rfl, rfl, rfl⟩⟩

/-- C16: with a caller that expects a return value, five registered handlers
return success and push nothing: `jsonUnmashal` (which writes the blob
`07 00 00 00` for the parameter `int 7`), `printi`, `prints`, `recvTrx` and
`parseParam` leave the operand stack empty, whereas `memcpy` and `callTrx`
push one word. -/
theorem result_not_pushed_by_five_handlers :
    (∃ vm1 : VM,
      jsonUnmashal (Host.basic [{ Typ := ascii "int", Val := ascii "7" }]) (VM.jsonSample [0, 4, 4])
        = Res.ret true none vm1
      ∧ vm1.memory.take 4 = [7, 0, 0, 0] ∧ vm1.envFunc.envFuncRtn = true ∧ vm1.stack = [])
    ∧ (∃ vm1 : VM, printi (VM.sample [1, 2, 3] [5]) = Res.ret true none vm1
      ∧ vm1.envFunc.envFuncRtn = true ∧ vm1.stack = [])
    ∧ (∃ vm1 : VM, prints (VM.sample [1, 2, 3] [0, 2]) = Res.ret true none vm1
      ∧ vm1.envFunc.envFuncRtn = true ∧ vm1.stack = [])
    ∧ (∃ vm1 : VM, recvTrx (Host.basic []) (VM.sample [1, 2, 3] [0, 2]) = Res.ret true none vm1
      ∧ vm1.envFunc.envFuncRtn = true ∧ vm1.stack = [])
    ∧ (∃ vm1 : VM, parseParam (VM.sample [1, 2, 3] [0, 2]) = Res.ret true none vm1
      ∧ vm1.envFunc.envFuncRtn = true ∧ vm1.stack = [])
    ∧ (∃ vm1 : VM, memcpy (VM.sample [1, 2, 3] [2, 0, 1]) = Res.ret true none vm1
      ∧ vm1.envFunc.envFuncRtn = true ∧ vm1.stack = [1])
    ∧ (∃ vm1 : VM, callTrx (Host.basic []) VM.callSample = Res.ret true none vm1
      ∧ vm1.envFunc.envFuncRtn = true ∧ vm1.stack = [0]) := by
  refine ⟨⟨_, rfl, by decide, rfl, rfl⟩, ⟨_, rfl, rfl, rfl⟩, ⟨_, rfl, rfl, rfl⟩,
    ⟨_, rfl, rfl, rfl⟩, ⟨_, rfl, rfl, rfl⟩, ⟨_, rfl, rfl, rfl⟩, ⟨_, rfl, rfl, rfl⟩⟩

/-! ## Theorems: typed-value document marshaling -/

theorem not_supported_iff (t : List UInt8) :
    t ∉ supportedTypesSpec ↔
      (t ≠ ascii "int" ∧ t ≠ ascii "int64" ∧ t ≠ ascii "string" ∧ t ≠ ascii "int_array"
        ∧ t ≠ ascii "int64_array") := by
  simp only [supportedTypesSpec, List.mem_cons, List.mem_nil_iff, not_or, or_false, ne_eq]

/-- The `switch` of `jsonMashal` has no default branch: for a type tag outside
the supported set the value text stays empty. -/
theorem jsonMashalVal_unsupported (h : Host) (vm : VM) (val : Nat) (t : List UInt8)
    (ht : t ∉ supportedTypesSpec) : jsonMashalVal h vm val t = Except.ok [] := by
  obtain ⟨h1, h2, h3, h4, h5⟩ := (not_supported_iff t).mp ht
  unfold jsonMashalVal
  rw [if_neg h1, if_neg h2, if_neg h3, if_neg h4, if_neg h5]

/-- On a type tag outside the supported set `jsonMashal` marshals a document
with that type and an empty value, stores it and returns success. -/
theorem jsonMashal_unsupported (h : Host) (vm vm1 : VM) (val ptype : Nat) (tpstr : GoSlice)
    (jsonstr : List UInt8) (offset : Int)
    (hp : vm.envFunc.envFuncParam = [val, ptype])
    (hg : h.GetData vm ptype = Except.ok tpstr)
    (ht : h.ToLower (h.BytesToString tpstr.elems) ∉ supportedTypesSpec)
    (hj : h.jsonMarshalRtn { Typ := h.ToLower (h.BytesToString tpstr.elems), Val := [] }
      = Except.ok jsonstr)
    (hst : h.StorageData vm (StoreArg.str jsonstr) = (Except.ok offset, vm1)) :
    jsonMashal h vm = Res.ret true none (vm1.restoreAndPush (toUint64 offset)) := by
  unfold jsonMashal
  simp only [hp, hg, jsonMashalVal_unsupported h vm val _ ht, hj, hst]

/-- A branch of the loop of `jsonUnmashal` that returns early returns
`(false, error)`. -/
theorem jsonUnmashalParam_error (h : Host) (vm : VM) (buff : List UInt8) (param : Param)
    (r : Res) (hr : jsonUnmashalParam h vm buff param = Except.error r) :
    ∃ (e : String) (vm1 : VM), r = Res.ret false (some e) vm1 := by
  unfold jsonUnmashalParam at hr
  repeat' split at hr
  all_goals first
    | exact Except.noConfusion hr
    | exact ⟨_, _, (Except.error.inj hr).symm⟩

/-- For a parameter whose lower-cased type is outside the supported set the
loop body of `jsonUnmashal` returns the unsupported-type error and leaves the
VM as it was. -/
theorem jsonUnmashalParam_unsupported (h : Host) (vm : VM) (buff : List UInt8) (param : Param)
    (ht : h.ToLower param.Typ ∉ supportedTypesSpec) :
    jsonUnmashalParam h vm buff param
      = Except.error (Res.ret false (some ("unsupported type :" ++ goString param.Typ)) vm) := by
  obtain ⟨h1, h2, h3, h4, h5⟩ := (not_supported_iff _).mp ht
  unfold jsonUnmashalParam
  rw [if_neg h1, if_neg h2, if_neg h4, if_neg h5, if_neg h3]

/-- The loop of `jsonUnmashal` returns `(false, error)` when some parameter has
a type outside the supported set. -/
theorem jsonUnmashalLoop_unsupported (h : Host) (ps : List Param) :
    ∀ (vm : VM) (buff : List UInt8),
      (∃ p ∈ ps, h.ToLower p.Typ ∉ supportedTypesSpec) →
      ∃ (e : String) (vm1 : VM),
        jsonUnmashalLoop h vm buff ps = Except.error (Res.ret false (some e) vm1) := by
  induction ps with
  | nil =>
    intro vm buff hex
    obtain ⟨p, hp, -⟩ := hex
    exact absurd hp (List.not_mem_nil p)
  | cons q qs ih =>
    intro vm buff hex
    unfold jsonUnmashalLoop
    cases hq : jsonUnmashalParam h vm buff q with
    | error r =>
      obtain ⟨e, vm1, rfl⟩ := jsonUnmashalParam_error h vm buff q r hq
      exact ⟨e, vm1, rfl⟩
    | ok res =>
      obtain ⟨vm1, buff1⟩ := res
      have hex2 : ∃ p ∈ qs, h.ToLower p.Typ ∉ supportedTypesSpec := by
        obtain ⟨p, hp, hpt⟩ := hex
        rcases List.mem_cons.mp hp with rfl | hp2
        · rw [jsonUnmashalParam_unsupported h vm buff p hpt] at hq
          exact Except.noConfusion hq
        · exact ⟨p, hp2, hpt⟩
      exact ih vm1 buff1 hex2

/-- The handler `jsonUnmashal` returns `(false, error)` when some parsed
parameter has a type outside the supported set. -/
theorem jsonUnmashal_unsupported (h : Host) (vm : VM) (addr size jsonaddr : Nat)
    (jsonbytes : GoSlice) (ps : List Param)
    (hp : vm.envFunc.envFuncParam = [addr, size, jsonaddr])
    (hg : h.GetData vm jsonaddr = Except.ok jsonbytes)
    (hj : h.jsonUnmarshalParamList jsonbytes.elems = Except.ok ps)
    (hex : ∃ p ∈ ps, h.ToLower p.Typ ∉ supportedTypesSpec) :
    ∃ (e : String) (vm1 : VM), jsonUnmashal h vm = Res.ret false (some e) vm1 := by
  obtain ⟨e, vm1, hl⟩ := jsonUnmashalLoop_unsupported h ps vm [] hex
  refine ⟨e, vm1, ?_⟩
  unfold jsonUnmashal
  simp only [hp, hg, hj, hl]

/-- C17: on the type tag `float`, which is outside the supported set,
`jsonUnmashal` fails with the unsupported-type error and leaves the VM as it
was, but `jsonMashal` does not fail: it stores the document with type `float`
and an empty value through the allocator, pushes the index 6 and returns
`(true, nil)`. -/
theorem jsonMashal_accepts_unsupported_type :
    ascii "float" ∉ supportedTypesSpec
    ∧ jsonUnmashal (Host.basic [{ Typ := ascii "float", Val := ascii "1" }])
        (VM.jsonSample [0, 4, 4])
      = Res.ret false (some "unsupported type :float") (VM.jsonSample [0, 4, 4])
    ∧ (∃ vm1 : VM, jsonMashal (Host.basic []) (VM.floatSample [5, 0]) = Res.ret true none vm1
        ∧ vm1.memory = ascii "float" ++ 0 :: ascii "float:" ∧ vm1.stack = [6]) := by
  refine ⟨by decide, rfl, _, rfl, by decide, rfl⟩

/-- C18: the round trip of `1,2,3` does not give `1,2,3` back.  With the
allocator of `Host.basic`, `jsonUnmashal` stores the list at index 14, packed
as 4-byte little-endian elements, and writes the index into the blob;
`jsonMashal` on that index with the type tag `int_array` reads element `i`
from the bytes `i .. i+4` and produces the value text `1,33554432,131072`.
A one-element list (`5`) does come back. -/
theorem int_array_roundtrip_breaks :
    (∃ vm1 : VM,
      jsonUnmashal (Host.basic [{ Typ := ascii "int_array", Val := ascii "1,2,3" }])
          (VM.jsonSample [0, 4, 4]) = Res.ret true none vm1
      ∧ vm1.memory.take 4 = putUint32 14
      ∧ (Host.basic []).GetData vm1 14
          = Except.ok { elems := [1, 0, 0, 0, 2, 0, 0, 0, 3, 0, 0, 0], spare := [] }
      ∧ ∃ vm2 : VM,
          jsonMashal (Host.basic []) (vm1.withFrame [14, 4] 0) = Res.ret true none vm2
          ∧ vm2.memory.drop 26 = ascii "int_array:1,33554432,131072")
    ∧ (∃ vm1 : VM,
      jsonUnmashal (Host.basic [{ Typ := ascii "int_array", Val := ascii "5" }])
          (VM.jsonSample [0, 4, 4]) = Res.ret true none vm1
      ∧ ∃ vm2 : VM,
          jsonMashal (Host.basic []) (vm1.withFrame [14, 4] 0) = Res.ret true none vm2
          ∧ vm2.memory.drop 18 = ascii "int_array:5") := by
  refine ⟨⟨_, rfl, by decide, rfl, _, rfl, by decide⟩, ⟨_, rfl, _, rfl, by decide⟩⟩

/-- What the loop body of `jsonUnmashal` appends to the blob for each
supported type: the value in 4 bytes for `int` and in 8 bytes for `int64`, the
index returned by the allocator in 4 bytes for `int_array` and `string` and in
8 bytes for `int64_array`. -/
theorem jsonUnmashalParam_field (h : Host) (vm : VM) (buff : List UInt8) (param : Param) :
    (∀ v : Int, h.ToLower param.Typ = ascii "int" → atoi param.Val = some v →
      jsonUnmashalParam h vm buff param = Except.ok (vm, buff ++ putUint32 (toUint32 v)))
    ∧ (∀ v : Int, h.ToLower param.Typ = ascii "int64" → atoi param.Val = some v →
      jsonUnmashalParam h vm buff param = Except.ok (vm, buff ++ putUint64 (toUint64 v)))
    ∧ (∀ (l : List Int) (idx : Int) (vm1 : VM), h.ToLower param.Typ = ascii "int_array" →
      (splitComma param.Val).mapM atoi = some l →
      h.StorageData vm (StoreArg.ints l) = (Except.ok idx, vm1) →
      jsonUnmashalParam h vm buff param = Except.ok (vm1, buff ++ putUint32 (toUint32 idx)))
    ∧ (∀ (l : List Int) (idx : Int) (vm1 : VM), h.ToLower param.Typ = ascii "int64_array" →
      (splitComma param.Val).mapM atoi = some l →
      h.StorageData vm (StoreArg.int64s l) = (Except.ok idx, vm1) →
      jsonUnmashalParam h vm buff param = Except.ok (vm1, buff ++ putUint64 (toUint64 idx)))
    ∧ (∀ (idx : Int) (vm1 : VM), h.ToLower param.Typ = ascii "string" →
      h.StorageData vm (StoreArg.str param.Val) = (Except.ok idx, vm1) →
      jsonUnmashalParam h vm buff param = Except.ok (vm1, buff ++ putUint32 (toUint32 idx))) := by
  refine ⟨fun v ht hv => ?_, fun v ht hv => ?_, fun l idx vm1 ht hl hst => ?_,
    fun l idx vm1 ht hl hst => ?_, fun idx vm1 ht hst => ?_⟩
  · unfold jsonUnmashalParam
    rw [if_pos ht]
    simp only [hv]
  · unfold jsonUnmashalParam
    rw [if_neg (by rw [ht]; decide), if_pos ht]
    simp only [hv]
  · unfold jsonUnmashalParam
    rw [if_neg (by rw [ht]; decide), if_neg (by rw [ht]; decide), if_pos ht]
    simp only [hl, hst]
  · unfold jsonUnmashalParam
    rw [if_neg (by rw [ht]; decide), if_neg (by rw [ht]; decide), if_neg (by rw [ht]; decide),
      if_pos ht]
    simp only [hl, hst]
  · unfold jsonUnmashalParam
    rw [if_neg (by rw [ht]; decide), if_neg (by rw [ht]; decide), if_neg (by rw [ht]; decide),
      if_neg (by rw [ht]; decide), if_pos ht]
    simp only [hst]

/-- The last statements of `jsonUnmashal`, for an address below `2^63`: when
the blob fits in the memory left by the loop it is written at `addr`, the
other bytes stay and the context is restored; when it does not fit the error
`out of memory` is returned and the blob is not written. -/
theorem jsonUnmashal_write (h : Host) (vm vmL : VM) (addr size jsonaddr : Nat)
    (jsonbytes : GoSlice) (ps : List Param) (blob : List UInt8)
    (hp : vm.envFunc.envFuncParam = [addr, size, jsonaddr])
    (hg : h.GetData vm jsonaddr = Except.ok jsonbytes)
    (hj : h.jsonUnmarshalParamList jsonbytes.elems = Except.ok ps)
    (hl : jsonUnmashalLoop h vm [] ps = Except.ok (vmL, blob))
    (ha : addr + blob.length < 9223372036854775808) :
    (addr + blob.length ≤ vmL.memory.length →
      ∃ vm1 : VM, jsonUnmashal h vm = Res.ret true none vm1
        ∧ vm1.memory.length = vmL.memory.length
        ∧ (∀ i, i < blob.length → vm1.memory[addr + i]? = blob[i]?)
        ∧ (∀ j, j < addr ∨ addr + blob.length ≤ j → vm1.memory[j]? = vmL.memory[j]?)
        ∧ vm1.ctx = vmL.envFunc.envFuncCtx ∧ vm1.stack = vmL.stack)
    ∧ (vmL.memory.length < addr + blob.length →
      jsonUnmashal h vm = Res.ret false (some "out of memory") vmL) := by
  have haI : toInt addr = (addr : Int) := toInt_of_lt addr (by omega)
  have hab : addInt (addr : Int) (blob.length : Int) = ((addr + blob.length : Nat) : Int) :=
    addInt_of_lt addr blob.length ha
  constructor
  · intro hfit
    have hS : jsonUnmashal h vm = Res.ret true none
        { vmL with
          memory := copyInto vmL.memory addr (addr + blob.length) blob
          ctx := vmL.envFunc.envFuncCtx } := by
      unfold jsonUnmashal
      simp only [hp, hg, hj, hl, haI, hab]
      rw [if_neg (by omega), sliceOf_in_range vmL.memory addr blob.length hfit]
      simp only [Int.toNat_natCast]
    exact ⟨_, hS, copyInto_length vmL.memory addr blob.length blob hfit rfl,
      fun i hi => copyInto_inside vmL.memory addr blob.length blob hfit rfl i hi,
      fun j hj => copyInto_outside vmL.memory addr blob.length blob hfit rfl j hj, rfl, rfl⟩
  · intro hbig
    unfold jsonUnmashal
    simp only [hp, hg, hj, hl, haI, hab]
    rw [if_pos (by omega)]

/-- For an address word of `2^63` or more `jsonUnmashal` panics, for every
host: once the document is decoded and the blob built, `int(addr)` is
negative, the test `int(addr)+len(bytes) > len(vm.memory)` does not fire for
a blob no longer than the memory, and the slice expression has a negative
bound. -/
theorem jsonUnmashal_addr_above_int_range (h : Host) (vm vmL : VM) (addr size jsonaddr : Nat)
    (jsonbytes : GoSlice) (ps : List Param) (blob : List UInt8)
    (hp : vm.envFunc.envFuncParam = [addr, size, jsonaddr])
    (hg : h.GetData vm jsonaddr = Except.ok jsonbytes)
    (hj : h.jsonUnmarshalParamList jsonbytes.elems = Except.ok ps)
    (hl : jsonUnmashalLoop h vm [] ps = Except.ok (vmL, blob))
    (ha : 9223372036854775808 ≤ addr) (hw : addr < 18446744073709551616)
    (hb : blob.length ≤ vmL.memory.length)
    (hm : vmL.memory.length < 9223372036854775808) :
    jsonUnmashal h vm = Res.fault := by
  have hA : toInt addr = (addr : Int) - 18446744073709551616 := by
    unfold toInt
    rw [Nat.mod_eq_of_lt hw, if_neg (by omega)]
  have hS : addInt ((addr : Int) - 18446744073709551616) (blob.length : Int)
      = (addr : Int) + (blob.length : Int) - 18446744073709551616 := by
    unfold addInt wrapInt
    omega
  have hN : sliceOf vmL.memory ((addr : Int) - 18446744073709551616)
      ((addr : Int) + (blob.length : Int) - 18446744073709551616) = none := by
    unfold sliceOf
    rw [if_neg (by omega)]
  unfold jsonUnmashal
  simp only [hp, hg, hj, hl, hA, hS, hN]
  rw [if_neg (by omega)]

set_option maxRecDepth 100000 in
/-- C20: for one parameter of each supported type `jsonUnmashal` writes the
blob as stated (`int 7` in 4 bytes, `int64 258` in 8, the allocator indices
30 and 38 of the `int_array` and the `string` in 4 bytes and 40 of the
`int64_array` in 8, 28 bytes in all, the bytes after them untouched), and for
an address inside memory at which the blob does not fit it returns the error
`out of memory` and writes nothing.  For the address words `2^64 - 1` and
`2^63`, whose conversion to `int` is negative, the test
`int(addr)+len(bytes) > len(vm.memory)` does not fire and the slice expression
panics. -/
theorem jsonUnmashal_blob_and_bounds :
    (∃ vm1 : VM,
      jsonUnmashal (Host.basic Param.oneOfEach) (VM.blobSample [0, 28, 28])
        = Res.ret true none vm1
      ∧ vm1.memory.take 28
          = [7, 0, 0, 0, 2, 1, 0, 0, 0, 0, 0, 0, 30, 0, 0, 0, 38, 0, 0, 0, 40, 0, 0, 0, 0, 0, 0, 0]
      ∧ vm1.memory.drop 28
          = [0x7b, 0x7d, 1, 0, 0, 0, 2, 0, 0, 0, 0x61, 0x62, 3, 0, 0, 0, 0, 0, 0, 0])
    ∧ jsonUnmashal (Host.basic [{ Typ := ascii "int", Val := ascii "7" }])
        (VM.jsonSample [11, 4, 4])
      = Res.ret false (some "out of memory") (VM.jsonSample [11, 4, 4])
    ∧ jsonUnmashal (Host.basic [{ Typ := ascii "int", Val := ascii "7" }])
        (VM.jsonSample [18446744073709551615, 4, 4]) = Res.fault
    ∧ jsonUnmashal (Host.basic [{ Typ := ascii "int", Val := ascii "7" }])
        (VM.jsonSample [9223372036854775808, 4, 4]) = Res.fault := by
  refine ⟨⟨_, rfl, by decide, by decide⟩, rfl, rfl, rfl⟩

/-! ## Theorems: cursor of the parameter stream -/

/-- An early exit of the switch of `readStringParam` is never a success. -/
theorem readStringSwitch_error (vm : VM) (b : GoSlice) (p : Nat) (tag : UInt8) (r : Res)
    (hs : readStringSwitch vm b p tag = Except.error r) :
    r = Res.fault ∨ r = Res.ret false (some "read string failed") vm := by
  unfold readStringSwitch at hs
  repeat' split at hs
  all_goals first
    | exact Except.noConfusion hs
    | (injection hs with hs; subst hs; first | exact Or.inl rfl | exact Or.inr rfl)

/-- The value of `pidx` after the switch of `readStringParam`: the cursor plus
the width of the prefix in an escaped form, the cursor itself (and the length
byte as `length`) in the plain form. -/
theorem readStringSwitch_pidx (vm : VM) (b : GoSlice) (p : Nat) (tag : UInt8)
    (length pidx : Nat)
    (hs : readStringSwitch vm b p tag = Except.ok (length, pidx)) :
    ((tag = 0xfd ∨ tag = 0xfe ∨ tag = 0xff) ∧ pidx = p + prefixWidthSpec tag)
    ∨ (tag ≠ 0xfd ∧ tag ≠ 0xfe ∧ tag ≠ 0xff ∧ pidx = p ∧ length = tag.toNat
        ∧ prefixWidthSpec tag = 1) := by
  unfold readStringSwitch at hs
  repeat' split at hs
  all_goals first
    | exact Except.noConfusion hs
    | (injection hs with hs
       injection hs with h1 h2
       subst h1 h2
       simp_all [prefixWidthSpec])

/-- The cursor left by every successful `readStringParam`: with `w` the width
of the prefix and `n` the length the handler decoded, it is `p + w + n` in the
plain form and `p + w + n + 1` in the three escaped forms; in both it is
greater than the cursor before. -/
theorem readStringParam_cursor (h : Host) (vm vm1 : VM) (e : Option String)
    (hs : readStringParam h vm = Res.ret true e vm1) :
    ∃ (addr : Nat) (b : GoSlice) (tag : UInt8) (length pidx : Nat),
      vm.envFunc.envFuncParam = [addr] ∧ h.GetData vm addr = Except.ok b
      ∧ b.index vm.envFunc.envFuncParamIdx = some tag
      ∧ readStringSwitch vm b vm.envFunc.envFuncParamIdx tag = Except.ok (length, pidx)
      ∧ vm1.envFunc.envFuncParamIdx
          = vm.envFunc.envFuncParamIdx + prefixWidthSpec tag + length
            + (if tag = 0xfd ∨ tag = 0xfe ∨ tag = 0xff then 1 else 0)
      ∧ vm.envFunc.envFuncParamIdx < vm1.envFunc.envFuncParamIdx := by
  unfold readStringParam at hs
  split at hs
  · rename_i addr hp
    split at hs
    · have := (Res.ret.inj hs).1
      exact absurd this (by decide)
    · rename_i b hg
      split at hs
      · exact Res.noConfusion hs
      · rename_i tag hi
        split at hs
        · rename_i r hsw
          rcases readStringSwitch_error _ _ _ _ _ hsw with hr | hr
          · rw [hr] at hs
            exact Res.noConfusion hs
          · rw [hr] at hs
            have := (Res.ret.inj hs).1
            exact absurd this (by decide)
        · rename_i length pidx hsw
          split at hs
          · have := (Res.ret.inj hs).1
            exact absurd this (by decide)
          · split at hs
            · exact Res.noConfusion hs
            · unfold readStringStore at hs
              split at hs
              · have := (Res.ret.inj hs).1
                exact absurd this (by decide)
              · have hv := (Res.ret.inj hs).2.2
                have hc : vm1.envFunc.envFuncParamIdx = pidx + (length + 1) := by
                  rw [← hv, VM.restoreAndPush_envFunc]
                refine ⟨addr, b, tag, length, pidx, hp, hg, hi, hsw, ?_, ?_⟩
                · rcases readStringSwitch_pidx _ _ _ _ _ _ hsw with ⟨ht, hpx⟩ | ⟨h1, h2, h3, hpx, hl, hw⟩
                  · rw [hc, hpx, if_pos ht]
                    omega
                  · rw [hc, hpx, hw, if_neg (by simp [h1, h2, h3])]
                    omega
                · rcases readStringSwitch_pidx _ _ _ _ _ _ hsw with ⟨_, hpx⟩ | ⟨_, _, _, hpx, _, _⟩
                  · rw [hc, hpx]
                    omega
                  · rw [hc, hpx]
                    omega
  · have := (Res.ret.inj hs).1
    exact absurd this (by decide)

/-- C21: in the plain form the cursor ends at `p + w + n` and the next read
decodes the value after the string (`02 41 42 | 07 00 00 00` from cursor 0:
cursor 3, then `readInt32Param` pushes 7).  In the escaped forms it ends one
byte further: on `FD 01 00 41 | 07 00 00 00 | 09` the cursor is 5, not
`0 + 3 + 1 = 4`, and the next `readInt32Param` pushes `0x09000000` instead of
7; on the `FE` and `FF` encodings of the same string the cursor is 7, not 6,
and 11, not 10.  When the encoded string is followed by the four bytes of the
value only, the next read fails. -/
theorem readStringParam_cursor_one_past_escaped :
    (∃ vm1 vm2 : VM,
      readStringParam (Host.recording ⟨[2, 0x41, 0x42, 7, 0, 0, 0], []⟩) (VM.sample [] [0])
        = Res.ret true none vm1
      ∧ vm1.envFunc.envFuncParamIdx = 0 + prefixWidthSpec 2 + 2
      ∧ readInt32Param (Host.recording ⟨[2, 0x41, 0x42, 7, 0, 0, 0], []⟩) vm1
        = Res.ret true none vm2
      ∧ vm2.stack = [0, 7] ∧ vm2.envFunc.envFuncParamIdx = 7)
    ∧ (∃ vm1 vm2 : VM,
      readStringParam (Host.recording ⟨[0xfd, 1, 0, 0x41, 7, 0, 0, 0, 9], []⟩) (VM.sample [] [0])
        = Res.ret true none vm1
      ∧ vm1.envFunc.envFuncParamIdx = 5 ∧ 0 + prefixWidthSpec 0xfd + 1 = 4
      ∧ readInt32Param (Host.recording ⟨[0xfd, 1, 0, 0x41, 7, 0, 0, 0, 9], []⟩) vm1
        = Res.ret true none vm2
      ∧ vm2.stack = [0, 150994944] ∧ vm2.envFunc.envFuncParamIdx = 9)
    ∧ (∃ vm1 : VM,
      readStringParam (Host.recording ⟨[0xfe, 1, 0, 0, 0, 0x41, 7, 0, 0, 0, 9], []⟩)
          (VM.sample [] [0])
        = Res.ret true none vm1
      ∧ vm1.envFunc.envFuncParamIdx = 7 ∧ 0 + prefixWidthSpec 0xfe + 1 = 6)
    ∧ (∃ vm1 : VM,
      readStringParam
          (Host.recording ⟨[0xff, 1, 0, 0, 0, 0, 0, 0, 0, 0x41, 7, 0, 0, 0, 9], []⟩)
          (VM.sample [] [0])
        = Res.ret true none vm1
      ∧ vm1.envFunc.envFuncParamIdx = 11 ∧ 0 + prefixWidthSpec 0xff + 1 = 10)
    ∧ (∃ vm1 : VM,
      readStringParam (Host.recording ⟨[0xfd, 1, 0, 0x41, 7, 0, 0, 0], []⟩) (VM.sample [] [0])
        = Res.ret true none vm1
      ∧ vm1.envFunc.envFuncParamIdx = 5
      ∧ readInt32Param (Host.recording ⟨[0xfd, 1, 0, 0x41, 7, 0, 0, 0], []⟩) vm1
        = Res.ret false (some "read params error") vm1) := by
  refine ⟨⟨_, _, rfl, rfl, rfl, rfl, rfl⟩, ⟨_, _, rfl, rfl, rfl, rfl, rfl, rfl⟩,
    ⟨_, rfl, rfl, rfl⟩, ⟨_, rfl, rfl, rfl⟩, ⟨_, rfl, rfl, rfl⟩⟩

/-! ## Theorems: transaction parameter accessor -/

/-- The handler `getParam` on two parameter words. -/
theorem getParam_two (vm : VM) (p0 p1 : Nat) (hp : vm.envFunc.envFuncParam = [p0, p1]) :
    getParam vm =
      if toInt p1 ≤ (vm.GetContract.Trx.Param.length : Int) then
        Res.ret false (some "buffer not enough") vm
      else
        match sliceOf vm.memory (toInt p0)
            (addInt (toInt p0) (vm.GetContract.Trx.Param.length : Int)) with
        | none => Res.fault
        | some _ =>
          Res.ret true none
            (VM.restoreAndPush
              { vm with
                memory := copyInto vm.memory (toInt p0).toNat
                  (addInt (toInt p0) (vm.GetContract.Trx.Param.length : Int)).toNat
                  vm.GetContract.Trx.Param }
              (toUint64 (vm.GetContract.Trx.Param.length : Int))) := by
  unfold getParam
  simp only [hp]

/-- C22: on two parameter words `getParam` returns the error
`buffer not enough`, with the VM unchanged, exactly when the word `bufLen` is
at most the length of the parameter bytes `P` of the active transaction or is
`2^63` or more (the handler reads it as `int(params[1])`, which is then
negative); a buffer of exactly `len(P)` bytes is rejected.  When
`len(P) < bufLen < 2^63` and `bufPos + len(P)` is inside memory it succeeds:
the bytes at `bufPos` are `P`, every other byte of memory is as before, the
context is restored and the result word is `len(P)`. -/
theorem getParam_spec (vm : VM) (bufPos bufLen : Nat)
    (hp : vm.envFunc.envFuncParam = [bufPos, bufLen])
    (hw : bufLen < 18446744073709551616)
    (hm : vm.memory.length < 9223372036854775808) :
    (getParam vm = Res.ret false (some "buffer not enough") vm
      ↔ bufLen ≤ vm.contract.Trx.Param.length ∨ 9223372036854775808 ≤ bufLen)
    ∧ (∀ (e : Option String) (vm1 : VM), getParam vm = Res.ret false e vm1 →
        e = some "buffer not enough" ∧ vm1 = vm)
    ∧ (vm.contract.Trx.Param.length < bufLen → bufLen < 9223372036854775808 →
        bufPos + vm.contract.Trx.Param.length ≤ vm.memory.length →
        ∃ vm1 : VM, getParam vm = Res.ret true none vm1
          ∧ vm1.memory.length = vm.memory.length
          ∧ (∀ i, i < vm.contract.Trx.Param.length →
              vm1.memory[bufPos + i]? = vm.contract.Trx.Param[i]?)
          ∧ (∀ j, j < bufPos ∨ bufPos + vm.contract.Trx.Param.length ≤ j →
              vm1.memory[j]? = vm.memory[j]?)
          ∧ vm1.ctx = vm.envFunc.envFuncCtx
          ∧ vm1.stack = (if vm.envFunc.envFuncRtn then
              vm.stack ++ [vm.contract.Trx.Param.length] else vm.stack)
          ∧ vm1.contract = vm.contract) := by
  have hE := getParam_two vm bufPos bufLen hp
  simp only [VM.GetContract] at hE
  have hmod : bufLen % 18446744073709551616 = bufLen := Nat.mod_eq_of_lt hw
  have hlo : bufLen < 9223372036854775808 → toInt bufLen = (bufLen : Int) :=
    fun hl => toInt_of_lt bufLen hl
  have hhi : 9223372036854775808 ≤ bufLen → toInt bufLen < 0 := by
    intro hl
    unfold toInt
    rw [hmod, if_neg (by omega)]
    omega
  have hiff : toInt bufLen ≤ (vm.contract.Trx.Param.length : Int)
      ↔ bufLen ≤ vm.contract.Trx.Param.length ∨ 9223372036854775808 ≤ bufLen := by
    by_cases hl : bufLen < 9223372036854775808
    · rw [hlo hl]
      omega
    · have := hhi (by omega)
      constructor
      · intro _
        exact Or.inr (by omega)
      · intro _
        omega
  refine ⟨⟨fun hs => ?_, fun hl => ?_⟩, fun e vm1 hs => ?_, fun hgt hlt hfit => ?_⟩
  · by_contra hn
    rw [hE, if_neg (fun hc => hn (hiff.mp hc))] at hs
    split at hs
    · exact Res.noConfusion hs
    · have := (Res.ret.inj hs).1
      exact absurd this (by decide)
  · rw [hE, if_pos (hiff.mpr hl)]
  · rw [hE] at hs
    split at hs
    · exact ⟨((Res.ret.inj hs).2.1).symm, ((Res.ret.inj hs).2.2).symm⟩
    · split at hs
      · exact Res.noConfusion hs
      · have := (Res.ret.inj hs).1
        exact absurd this (by decide)
  · have h0 : toInt bufPos = (bufPos : Int) := toInt_of_lt bufPos (by omega)
    have hab : addInt (bufPos : Int) (vm.contract.Trx.Param.length : Int)
        = ((bufPos + vm.contract.Trx.Param.length : Nat) : Int) :=
      addInt_of_lt bufPos vm.contract.Trx.Param.length (by omega)
    have hS : getParam vm = Res.ret true none
        (VM.restoreAndPush
          { vm with
            memory := copyInto vm.memory bufPos (bufPos + vm.contract.Trx.Param.length)
              vm.contract.Trx.Param }
          vm.contract.Trx.Param.length) := by
      rw [hE, if_neg (by rw [hlo hlt]; omega)]
      simp only [h0, hab]
      rw [sliceOf_in_range vm.memory bufPos vm.contract.Trx.Param.length hfit]
      simp only [Int.toNat_natCast]
      rw [toUint64_natCast _ (by omega)]
    refine ⟨_, hS, ?_, fun i hi => ?_, fun j hj => ?_, ?_, ?_, ?_⟩
    · rw [VM.restoreAndPush_memory]
      exact copyInto_length vm.memory bufPos _ _ hfit rfl
    · rw [VM.restoreAndPush_memory]
      exact copyInto_inside vm.memory bufPos _ _ hfit rfl i hi
    · rw [VM.restoreAndPush_memory]
      exact copyInto_outside vm.memory bufPos _ _ hfit rfl j hj
    · rw [VM.restoreAndPush_ctx]
    · rw [VM.restoreAndPush_stack]
    · simp only [VM.restoreAndPush, VM.pushUint64]
      split <;> rfl

/-- An instance of `getParam_spec` with `P = 70 71` and a 4-byte memory
`01 02 03 04`: a buffer of 2 bytes at address 1 is rejected, a buffer of 3
bytes at address 1 receives `P`, leaving `01 70 71 04`, and the result word
is 2. -/
theorem getParam_spec_witness :
    getParam ((VM.sample [1, 2, 3, 4] [1, 2]).withTrxParam [0x70, 0x71])
      = Res.ret false (some "buffer not enough")
          ((VM.sample [1, 2, 3, 4] [1, 2]).withTrxParam [0x70, 0x71])
    ∧ ∃ vm1 : VM,
        getParam ((VM.sample [1, 2, 3, 4] [1, 3]).withTrxParam [0x70, 0x71])
          = Res.ret true none vm1
        ∧ vm1.memory[0]? = some 1 ∧ vm1.memory[1]? = some 0x70
        ∧ vm1.memory[2]? = some 0x71 ∧ vm1.memory[3]? = some 4
        ∧ vm1.stack = [2] := by
  refine ⟨(getParam_spec ((VM.sample [1, 2, 3, 4] [1, 2]).withTrxParam [0x70, 0x71]) 1 2 rfl
    (by decide) (by decide)).1.mpr (Or.inl (by decide)), ?_⟩
  obtain ⟨vm1, h1, _, h3, h4, _, h6, _⟩ :=
    (getParam_spec ((VM.sample [1, 2, 3, 4] [1, 3]).withTrxParam [0x70, 0x71]) 1 3 rfl
      (by decide) (by decide)).2.2 (by decide) (by decide) (by decide)
  exact ⟨vm1, h1, h4 0 (Or.inl (by decide)), h3 0 (by decide), h3 1 (by decide),
    h4 3 (Or.inr (by decide)), h6⟩

/-- Counterexample for C22 as stated, with `P = 70 71` and a 4-byte memory:
the words `bufLen = 2^64 - 1` and `bufLen = 2^63` are greater than `len(P)`
and the range `[0, 0 + len(P))` is inside memory, yet `getParam` returns the
error `buffer not enough`. -/
theorem getParam_rejects_word_above_int_range :
    ((VM.sample [1, 2, 3, 4] [0, 18446744073709551615]).withTrxParam
        [0x70, 0x71]).contract.Trx.Param.length = 2
    ∧ ¬ (18446744073709551615 ≤ 2) ∧ 0 + 2 ≤ [(1 : UInt8), 2, 3, 4].length
    ∧ getParam ((VM.sample [1, 2, 3, 4] [0, 18446744073709551615]).withTrxParam [0x70, 0x71])
      = Res.ret false (some "buffer not enough")
          ((VM.sample [1, 2, 3, 4] [0, 18446744073709551615]).withTrxParam [0x70, 0x71])
    ∧ getParam ((VM.sample [1, 2, 3, 4] [0, 9223372036854775808]).withTrxParam [0x70, 0x71])
      = Res.ret false (some "buffer not enough")
          ((VM.sample [1, 2, 3, 4] [0, 9223372036854775808]).withTrxParam [0x70, 0x71])
    ∧ ∃ vm1 : VM,
        getParam ((VM.sample [1, 2, 3, 4] [0, 9223372036854775807]).withTrxParam [0x70, 0x71])
          = Res.ret true none vm1
        ∧ vm1.memory = [0x70, 0x71, 3, 4] ∧ vm1.stack = [2] := by
  refine ⟨rfl, by decide, by decide, rfl, rfl, _, rfl, rfl, rfl⟩

end WasmExec
